import Mathlib

/-!
# WebModule and wni: a verification development

Shallow embedding of `opencog/web/WebModule.cc`, `opencog/web/WebModule.h` and
`src/nlp/wordnet-import/wni.c`.

C strings are `List Char`: the list holds the bytes in front of the terminating NUL.
Calls to `logger()` write to the log only and are left out.
-/

set_option autoImplicit false
set_option linter.dupNamespace false

namespace opencog

/-! ## The embedded HTTP server (mongoose), as far as `WebModule.cc` uses it -/

/-- The three free functions `viewAtomPage`, `viewListPage` and `makeRequest` that
`WebModule.cc` hands to `mg_set_uri_callback`. -/
inductive Callback where
  | viewAtomPage
  | viewListPage
  | makeRequest
  deriving DecidableEq, Repr

/-- One registration made by `mg_set_uri_callback(ctx, uri_regex, func, user_data)`. -/
structure UriCallback where
  uri_regex : List Char
  func : Callback
  user_data : Option (List Char)
  deriving DecidableEq, Repr

/-- The part of `struct mg_context` that `WebModule.cc` touches: whether the server started
by `mg_start` is still running, the options set by `mg_set_option` and the callbacks
registered by `mg_set_uri_callback`, both in call order. An option value is a `const char*`,
`none` being `NULL`. -/
structure mg_context where
  running : Bool
  options : List (List Char × Option (List Char))
  callbacks : List UriCallback
  deriving DecidableEq, Repr

/-- The context `mg_start()` returns: a running server, nothing set, nothing registered. -/
def mg_start : mg_context := ⟨true, [], []⟩

/-- The function `mg_stop(ctx)`: the server stops. -/
def mg_stop (ctx : mg_context) : mg_context :=
  { ctx with running := false }

/-- The function `mg_set_option(ctx, name, value)`: records the option after the ones
already set. -/
def mg_set_option (ctx : mg_context) (name : List Char) (value : Option (List Char)) :
    mg_context :=
  { ctx with options := ctx.options ++ [(name, value)] }

/-- The function `mg_set_uri_callback(ctx, uri_regex, func, user_data)`: registers the
callback after the ones already registered. -/
def mg_set_uri_callback (ctx : mg_context) (uri_regex : List Char) (func : Callback)
    (user_data : Option (List Char)) : mg_context :=
  { ctx with callbacks := ctx.callbacks ++ [⟨uri_regex, func, user_data⟩] }

/-- Modelled from the spec: the URI matcher of the embedded HTTP server (mongoose, not under
`src/`). A pattern is matched character by character against the request path; `*` matches
any, possibly empty, remainder of the path, and every other character matches literally. The
result is the text the wildcard stood for (empty for a pattern without a wildcard), or `none`
when the pattern does not match. -/
def match_uri : List Char → List Char → Option (List Char)
  | [], [] => some []
  | [], _ :: _ => none
  | c :: ps, us =>
    if c = '*' then (match_uri ps []).map (fun _ => us)
    else match us with
      | [] => none
      | u :: us => if c = u then match_uri ps us else none

/-- Modelled from the spec: route selection of the embedded HTTP server (mongoose, not under
`src/`). The callbacks are tried in registration order and the first whose pattern matches
the request path is selected, together with the text its wildcard stood for. -/
def find_callback : List UriCallback → List Char → Option (UriCallback × List Char)
  | [], _ => none
  | cb :: rest, uri =>
    match match_uri cb.uri_regex uri with
    | some w => some (cb, w)
    | none => find_callback rest uri

/-- Modelled from the spec: query-string parameters are not part of matching (the HTTP
server, not under `src/`, splits the request URI at the first `?`); this is the request path
that is matched. -/
def strip_query (uri : List Char) : List Char :=
  uri.takeWhile (fun c => c != '?')

/-- C-style formatting of a format string with `%s` and `%%` directives over string
arguments; any other character is copied. -/
def format_s : List Char → List (List Char) → List Char
  | [], _ => []
  | [c], _ => [c]
  | c :: d :: fmt, args =>
    if c = '%' then
      if d = 's' then
        match args with
        | a :: args => a ++ format_s fmt args
        | [] => format_s fmt []
      else if d = '%' then '%' :: format_s fmt args
      else c :: format_s (d :: fmt) args
    else c :: format_s (d :: fmt) args

/-- A `struct mg_connection`, as far as `WebModule.cc` uses it: the bytes written to the
client so far. -/
structure mg_connection where
  written : List Char
  deriving DecidableEq, Repr

/-- Modelled from the spec: `mg_printf(conn, fmt, ...)` of the embedded HTTP server
(mongoose, not under `src/`), the C-style raw string formatting the status lines are written
with: the formatted text is written to the connection. -/
def mg_printf (conn : mg_connection) (fmt : List Char) (args : List (List Char)) :
    mg_connection :=
  ⟨conn.written ++ format_s fmt args⟩

/-- The result of `std::string::c_str()` read as a C string: the bytes in front of the first NUL. -/
def c_str (s : List Char) : List Char :=
  s.takeWhile (fun c => c != Char.ofNat 0)

/-! ## Configuration, build and file system, taken as parameters -/

/-- The configuration `config()` returns (`opencog/util/Config.h`, not under `src/`), through
the three member functions the constructor calls. -/
structure Config where
  has : List Char → Bool
  get : List Char → List Char
  get_int : List Char → Int

/-- What the build fixes: the `DATADIR` macro and whether `WIN32` is defined. -/
structure Build where
  DATADIR : List Char
  WIN32 : Bool

/-- The request factories the constructor registers with the CogServer. -/
inductive RequestFactory where
  | getAtomFactory
  | getListFactory
  deriving DecidableEq, Repr

/-- The `CogServer`, as far as the constructor uses it: the factories registered with
`registerRequest`, in call order. -/
abbrev CogServer := List RequestFactory

/-- The member function `CogServer::registerRequest(id, factory)`. -/
def registerRequest (cogserver : CogServer) (factory : RequestFactory) : CogServer :=
  cogserver ++ [factory]

/-- Conversion of an `int` to `unsigned short`: the value modulo `2^16`. -/
def to_unsigned_short (n : Int) : Nat :=
  (n % 65536).toNat

/-- The `operator/=` of `boost::filesystem::path`: the file name appended to the directory, with
a separator in between unless the directory is empty or already ends in one. -/
def path_append (dir file : List Char) : List Char :=
  match dir.getLast? with
  | none => file
  | some c => if c = '/' then dir ++ file else dir ++ '/' :: file

/-! ## `class WebModule` -/

/-- The data members of `class WebModule` that `WebModule.cc` reads or writes. `ctx` is
`none` until `init` has stored the context `mg_start` returns. -/
structure WebModule where
  _port : Nat
  ctx : Option mg_context
  timeout : Int
  serverAddress : List Char
  deriving DecidableEq, Repr

/-- The macro `#define REST_PATH_PREFIX "/rest/0.2"` -/
def REST_PATH_PREFIX : List Char := "/rest/0.2".toList

/-- The macro `#define UI_PATH_PREFIX "/opencog"` -/
def UI_PATH_PREFIX : List Char := "/opencog".toList

/-- The array `DEFAULT_WEB_PATH` of `WebModule.cc`; the last entry is the `NULL`
terminator. -/
def DEFAULT_WEB_PATH (build : Build) : List (Option (List Char)) :=
  [some build.DATADIR, some "../opencog/web".toList] ++
  (if build.WIN32 then []
   else [some "/usr/share/opencog/www".toList, some "/usr/local/share/opencog/www".toList]) ++
  [none]

namespace WebModule

/-- The declaration `static const unsigned int DEFAULT_PORT = 17034;` -/
def DEFAULT_PORT : Nat := 17034

/-- The declaration `const char* WebModule::DEFAULT_SERVER_ADDRESS = "http://localhost";` -/
def DEFAULT_SERVER_ADDRESS : List Char := "http://localhost".toList

/-- The member function `WebModule::setupURIsForUI`. -/
def setupURIsForUI (ctx : mg_context) : mg_context :=
  let ctx := mg_set_uri_callback ctx (UI_PATH_PREFIX ++ "/atom/*".toList) .viewAtomPage none
  let ctx := mg_set_uri_callback ctx (UI_PATH_PREFIX ++ "/atom".toList) .viewAtomPage none
  let ctx := mg_set_uri_callback ctx (UI_PATH_PREFIX ++ "/list".toList) .viewListPage none
  let ctx := mg_set_uri_callback ctx (UI_PATH_PREFIX ++ "/list/*".toList) .viewListPage none
  mg_set_uri_callback ctx (UI_PATH_PREFIX ++ "/request/*".toList) .makeRequest none

/-- The member function `WebModule::setupURIsForREST`; `rest_str` is the static `"rest"`
passed as user data. -/
def setupURIsForREST (ctx : mg_context) : mg_context :=
  let rest_str : List Char := "rest".toList
  let ctx := mg_set_uri_callback ctx (REST_PATH_PREFIX ++ "/atom/type/*".toList) .viewListPage
    (some rest_str)
  let ctx := mg_set_uri_callback ctx (REST_PATH_PREFIX ++ "/atom/".toList) .viewListPage
    (some rest_str)
  let ctx := mg_set_uri_callback ctx (REST_PATH_PREFIX ++ "/atom/*".toList) .viewAtomPage
    (some rest_str)
  mg_set_uri_callback ctx (REST_PATH_PREFIX ++ "/server/request/*".toList) .makeRequest
    (some rest_str)

/-- The member function `WebModule::setupURIs`: the REST routes, then the UI routes. -/
def setupURIs (ctx : mg_context) : mg_context :=
  setupURIsForUI (setupURIsForREST ctx)

/-- The member function `WebModule::return400`. -/
def return400 (conn : mg_connection) (message : List Char) : mg_connection :=
  mg_printf conn "HTTP/1.1 400 %s\r\n".toList [c_str message]

/-- The member function `WebModule::return404`. -/
def return404 (conn : mg_connection) : mg_connection :=
  mg_printf conn "HTTP/1.1 404 Not found.\r\n".toList []

/-- The member function `WebModule::return500`. -/
def return500 (conn : mg_connection) (message : List Char) : mg_connection :=
  mg_printf conn "HTTP/1.1 500 %s\r\n".toList [c_str message]

/-- The constructor `WebModule::WebModule()`: the member initialisers, the two configuration
look-ups, the two request registrations and `timeout = 100`. It yields the object and the
CogServer with the registrations made. -/
def WebModule (config : Config) (cogserver : CogServer) : opencog.WebModule × CogServer :=
  let _port : Nat := DEFAULT_PORT % 65536
  let serverAddress := DEFAULT_SERVER_ADDRESS
  let _port := if config.has "Web_PORT".toList then
    to_unsigned_short (config.get_int "Web_PORT".toList) else _port
  let serverAddress := if config.has "Web_SERVER".toList then
    config.get "Web_SERVER".toList else serverAddress
  let cogserver := registerRequest cogserver .getAtomFactory
  let cogserver := registerRequest cogserver .getListFactory
  let timeout : Int := 100
  (⟨_port, none, timeout, serverAddress⟩, cogserver)

/-- The loop of `init` over `DEFAULT_WEB_PATH` from index `i` on: it stops at the first
entry that is `NULL` or whose directory holds `processing.js`, and yields that index. The
list argument is the part of the array from index `i` on. -/
def web_path_index (file_exists : List Char → Bool) : List (Option (List Char)) → Nat → Nat
  | some dir :: rest, i =>
    if file_exists (path_append dir "processing.js".toList) then i
    else web_path_index file_exists rest (i + 1)
  | _, i => i

/-- The member function `WebModule::init`: the port is rendered in decimal, the server is
started, the options `ports`, `root` and `dir_list` are set and the URIs are registered. -/
def init (self : opencog.WebModule) (build : Build) (file_exists : List Char → Bool) :
    opencog.WebModule :=
  let port_str : List Char := Nat.toDigits 10 self._port
  let ctx := mg_start
  let ctx := mg_set_option ctx "ports".toList (some port_str)
  let i := web_path_index file_exists (DEFAULT_WEB_PATH build) 0
  let ctx := mg_set_option ctx "root".toList ((DEFAULT_WEB_PATH build).getD i none)
  let ctx := mg_set_option ctx "dir_list".toList (some "no".toList)
  let ctx := setupURIs ctx
  { self with ctx := some ctx }

end WebModule

/-! ## The module life cycle -/

/-- A `WebModule*`: `NULL`, or the address of the one object `opencog_module_load`
allocates. -/
inductive Pointer where
  | NULL
  | module
  deriving DecidableEq, Repr

/-- The process state the life cycle acts on: the global `rest_mod`, the object allocated by
`new WebModule()` (`none` before the allocation) and the CogServer. -/
structure Process where
  rest_mod : Pointer
  module : Option WebModule
  cogserver : CogServer
  deriving DecidableEq, Repr

/-- The state before the module is loaded: `rest_mod` is a zero-initialised global. -/
def Process.start : Process := ⟨.NULL, none, []⟩

/-- The steps of the life cycle: `opencog_module_load`, `init`, and the three statements of
`WebModule::~WebModule` in program order. -/
inductive Step where
  | opencog_module_load
  | init
  | destructor_rest_mod_NULL
  | destructor_logger_debug
  | destructor_mg_stop
  deriving DecidableEq, Repr

/-- One step of the life cycle. -/
def Process.step (config : Config) (build : Build) (file_exists : List Char → Bool)
    (p : Process) : Step → Process
  | .opencog_module_load =>
    let r := WebModule.WebModule config p.cogserver
    { rest_mod := .module, module := some r.1, cogserver := r.2 }
  | .init => { p with module := p.module.map (fun m => WebModule.init m build file_exists) }
  | .destructor_rest_mod_NULL => { p with rest_mod := .NULL }
  | .destructor_logger_debug => p
  | .destructor_mg_stop =>
    { p with module := p.module.map (fun m => { m with ctx := m.ctx.map mg_stop }) }

/-- The states a step sequence goes through, the starting state first. -/
def Process.trace (config : Config) (build : Build) (file_exists : List Char → Bool) :
    Process → List Step → List Process
  | p, [] => [p]
  | p, s :: rest =>
    p :: Process.trace config build file_exists (Process.step config build file_exists p s) rest

/-- The life cycle of the module: load, `init`, then the destructor statement by
statement. -/
def lifecycle : List Step :=
  [.opencog_module_load, .init, .destructor_rest_mod_NULL, .destructor_logger_debug,
   .destructor_mg_stop]

/-- Whether the embedded HTTP server is running: `mg_start` has been called and `mg_stop`
has not. -/
def Process.server_running (p : Process) : Bool :=
  match p.module with
  | some m => match m.ctx with
    | some ctx => ctx.running
    | none => false
  | none => false

/-! ## Auxiliary definitions for the statements about the document root -/

/-- The candidate directories of `DEFAULT_WEB_PATH`: its entries other than `NULL`, in list
order. -/
def web_path_candidates (build : Build) : List (List Char) :=
  (DEFAULT_WEB_PATH build).reduceOption

/-- Whether a directory contains a file `processing.js`, under a given file system. -/
def contains_processing_js (file_exists : List Char → Bool) (dir : List Char) : Bool :=
  file_exists (path_append dir "processing.js".toList)

/-- The value `init` passes to the HTTP server as its `root` option: `none` when the option
is not set, `some none` when it is set to `NULL`. -/
def root_option (self : WebModule) (build : Build) (file_exists : List Char → Bool) :
    Option (Option (List Char)) :=
  match (WebModule.init self build file_exists).ctx with
  | some ctx => (ctx.options.find? (fun o => o.1 = "root".toList)).map (fun o => o.2)
  | none => none

/-- A build on a system other than Windows with `DATADIR` set to `/usr/local/share/opencog`. -/
def sample_build : Build := ⟨"/usr/local/share/opencog".toList, false⟩

/-! ## Auxiliary definitions for the statements about routes -/

/-- A pattern matches a path when `match_uri` yields a wildcard text. -/
def matches_uri (pattern uri : List Char) : Bool :=
  (match_uri pattern uri).isSome

/-- The callback function selected for a request path, if any. -/
def selected (cbs : List UriCallback) (uri : List Char) : Option Callback :=
  (find_callback cbs uri).map (fun r => r.1.func)

/-- The table `setupURIsForREST` registers on a fresh context. -/
def rest_table : List UriCallback := (WebModule.setupURIsForREST mg_start).callbacks

/-- The table `setupURIs` registers on a fresh context. -/
def uri_table : List UriCallback := (WebModule.setupURIs mg_start).callbacks

/-- The literal text in front of the first `*` of a pattern. -/
def literal_part (pattern : List Char) : List Char :=
  pattern.takeWhile (fun c => c != '*')

/-- Whether two patterns can match a common path, as far as their literal parts tell: two
wildcard patterns need comparable literal parts, a wildcard pattern and an exact one need the
literal part to be a prefix of the exact pattern, two exact patterns need to be equal. -/
def compatible (p q : List Char) : Bool :=
  if '*' ∈ p then
    if '*' ∈ q then (literal_part p).isPrefixOf (literal_part q) ||
      (literal_part q).isPrefixOf (literal_part p)
    else (literal_part p).isPrefixOf q
  else
    if '*' ∈ q then (literal_part q).isPrefixOf p
    else p == q

/-- For each registered pattern, by position, a request path it is the first to match. -/
def sample_path : Nat → List Char
  | 0 => "/rest/0.2/atom/type/noun".toList
  | 1 => "/rest/0.2/atom/".toList
  | 2 => "/rest/0.2/atom/123".toList
  | 3 => "/rest/0.2/server/request/list".toList
  | 4 => "/opencog/atom/123".toList
  | 5 => "/opencog/atom".toList
  | 6 => "/opencog/list".toList
  | 7 => "/opencog/list/noun".toList
  | _ => "/opencog/request/list".toList

end opencog

namespace wni

/-! ## `wni.c`: the run of a C function -/

/-- How a call ends: it returns a value, the process ends in `exit(status)`, or the
behaviour is undefined in C (a `NULL` or out-of-bounds access, a buffer overrun). -/
inductive Outcome (α : Type) where
  | value (a : α)
  | exit (status : Int)
  | undefined
  deriving DecidableEq, Repr

/-- The run of a call: what it wrote to `stdout`, what it wrote to `stderr`, and how it
ended. -/
structure Run (α : Type) where
  stdout : List Char
  stderr : List Char
  outcome : Outcome α
  deriving DecidableEq, Repr

/-- A call that returns at once. -/
def Run.pure {α : Type} (a : α) : Run α := ⟨[], [], .value a⟩

/-- Sequencing: the second part runs only when the first returned; the output is
concatenated. -/
def Run.bind {α β : Type} (m : Run α) (f : α → Run β) : Run β :=
  match m.outcome with
  | .value a => ⟨m.stdout ++ (f a).stdout, m.stderr ++ (f a).stderr, (f a).outcome⟩
  | .exit status => ⟨m.stdout, m.stderr, .exit status⟩
  | .undefined => ⟨m.stdout, m.stderr, .undefined⟩

instance : Monad Run where
  pure := Run.pure
  bind := Run.bind

/-- The function `printf`, given the text the format and its arguments produce. -/
def printf (text : List Char) : Run Unit := ⟨text, [], .value ()⟩

/-- The function `fprintf(stderr, ...)`, given the text the format and its arguments produce. -/
def fprintf_stderr (text : List Char) : Run Unit := ⟨[], text, .value ()⟩

/-- The function `exit(status)`. -/
def exit {α : Type} (status : Int) : Run α := ⟨[], [], .exit status⟩

/-- Undefined behaviour. -/
def undefined {α : Type} : Run α := ⟨[], [], .undefined⟩

/-- Access through a pointer or an index that may be invalid. -/
def deref {α : Type} : Option α → Run α
  | some a => Run.pure a
  | none => undefined

/-! ## The C library -/

/-- The function `strchr(s, c)`: the part of `s` from the first `c` on, `none` being `NULL`. -/
def strchr : List Char → Char → Option (List Char)
  | [], _ => none
  | x :: xs, c => if x = c then some (x :: xs) else strchr xs c

/-- The function `isspace` of the C locale. -/
def isspace (c : Char) : Bool :=
  c = ' ' || (9 ≤ c.toNat && c.toNat ≤ 13)

/-- The function `isdigit` of the C locale. -/
def isdigit (c : Char) : Bool :=
  48 ≤ c.toNat && c.toNat ≤ 57

/-- The value of the leading decimal digits of a string, on top of `acc`. -/
def digits_value : List Char → Nat → Nat
  | [], acc => acc
  | c :: cs, acc =>
    if isdigit c then digits_value cs (acc * 10 + (c.toNat - 48)) else acc

/-- The result of `strtol(s, NULL, 10)`: leading white space is skipped, then an optional
sign and the decimal digits are read; a value outside the range of `long` (64 bits) is
replaced by the nearest bound. -/
def strtol (s : List Char) : Int :=
  let s := s.dropWhile isspace
  let v : Int := match s with
    | [] => 0
    | c :: cs =>
      if c = '-' then -(digits_value cs 0 : Int)
      else if c = '+' then (digits_value cs 0 : Int)
      else (digits_value (c :: cs) 0 : Int)
  if v < -9223372036854775808 then -9223372036854775808
  else if 9223372036854775807 < v then 9223372036854775807
  else v

/-- Conversion of a `long` to `int` (32 bits, two's complement): the value modulo `2^32`. -/
def to_int (v : Int) : Int :=
  (v + 2147483648) % 4294967296 - 2147483648

/-- The function `atoi(s)`, which the C library computes as `(int) strtol(s, NULL, 10)`: a
value that no `int` holds comes back wrapped modulo `2^32`. -/
def atoi (s : List Char) : Int :=
  to_int (strtol s)

/-- The text `%d` produces. -/
def fmt_d (n : Int) : List Char :=
  if n < 0 then '-' :: Nat.toDigits 10 n.natAbs else Nat.toDigits 10 n.toNat

/-- The text `%02d` produces: at least two characters, zero-padded on the left. -/
def fmt_02d (n : Int) : List Char :=
  if n < 0 then '-' :: Nat.toDigits 10 n.natAbs
  else if n < 10 then '0' :: Nat.toDigits 10 n.toNat
  else Nat.toDigits 10 n.toNat

/-- The text `%x` produces for a `char` argument: the byte is promoted to `int` with its
sign, so a byte from `0x80` on is printed as the 32-bit value `0xffffff80` and up. -/
def fmt_x (c : Char) : List Char :=
  let byte := c.toNat % 256
  Nat.toDigits 16 (if byte < 128 then byte else 4294967040 + byte)

/-! ## The WordNet library (`wn.h`), taken as a parameter -/

mutual
/-- The fields of `struct ss` (`Synset`) that `wni.c` reads. -/
inductive Synset where
  | mk (hereiam : Int) (pos : List Char) (wcount : Int) (words : List (List Char))
      (lexid : List Int) (fnum : Int) (headword : Option (List Char)) (headsense : Int)
      (nextss : SynsetPtr) (ptrlist : SynsetPtr)
/-- A `Synset *`. -/
inductive SynsetPtr where
  | NULL
  | ref (synp : Synset)
end

/-- The field `synp->hereiam` -/
def Synset.hereiam : Synset → Int
  | .mk x _ _ _ _ _ _ _ _ _ => x

/-- The field `synp->pos` -/
def Synset.pos : Synset → List Char
  | .mk _ x _ _ _ _ _ _ _ _ => x

/-- The field `synp->wcount` -/
def Synset.wcount : Synset → Int
  | .mk _ _ x _ _ _ _ _ _ _ => x

/-- The field `synp->words` -/
def Synset.words : Synset → List (List Char)
  | .mk _ _ _ x _ _ _ _ _ _ => x

/-- The field `synp->lexid` -/
def Synset.lexid : Synset → List Int
  | .mk _ _ _ _ x _ _ _ _ _ => x

/-- The field `synp->fnum` -/
def Synset.fnum : Synset → Int
  | .mk _ _ _ _ _ x _ _ _ _ => x

/-- The field `synp->headword` -/
def Synset.headword : Synset → Option (List Char)
  | .mk _ _ _ _ _ _ x _ _ _ => x

/-- The field `synp->headsense` -/
def Synset.headsense : Synset → Int
  | .mk _ _ _ _ _ _ _ x _ _ => x

/-- The field `synp->nextss` -/
def Synset.nextss : Synset → SynsetPtr
  | .mk _ _ _ _ _ _ _ _ x _ => x

/-- The field `synp->ptrlist` -/
def Synset.ptrlist : Synset → SynsetPtr
  | .mk _ _ _ _ _ _ _ _ _ x => x

/-- The field `synp->pos[0]`; the first byte of an empty string is its NUL. -/
def Synset.pos0 (synp : Synset) : Char :=
  synp.pos.headD (Char.ofNat 0)

/-- The WordNet library as `wni.c` uses it: the three functions it calls (`read_synset` is
always called with a `NULL` word) and the pointer-type constants of `wn.h`. -/
structure WordNet where
  read_synset : Int → Int → SynsetPtr
  is_defined : List Char → Int → Nat
  findtheinfo_ds : List Char → Int → Nat → Int → SynsetPtr
  HYPERPTR : Nat
  HYPOPTR : Nat
  ENTAILPTR : Nat
  SIMPTR : Nat
  ISMEMBERPTR : Nat
  ISSTUFFPTR : Nat
  ISPARTPTR : Nat
  HASMEMBERPTR : Nat
  HASSTUFFPTR : Nat
  HASPARTPTR : Nat
  CAUSETO : Nat
  PPLPTR : Nat
  PERTPTR : Nat

/-! ## `wni.c` -/

/-- The macro `#define BUFSZ 300` -/
def BUFSZ : Nat := 300

/-- The declaration `static int skip_colocations = 0;` (never assigned). -/
def skip_colocations : Int := 0

/-- The function `do_export`. -/
def do_export (word : List Char) : Int :=
  if 0 = skip_colocations then 1
  else
    let p := strchr word '_'
    if p = none then 1 else 0

/-- The function `getsspos`. -/
def getsspos (synp : Synset) : Run Int :=
  let c := synp.pos0
  if c = 'n' then pure 1
  else if c = 'v' then pure 2
  else if c = 'a' then pure 3
  else if c = 'r' then pure 4
  else if c = 's' then pure 5
  else do
    fprintf_stderr ("Error: unexpected pos ".toList ++ fmt_x c ++ "\n".toList)
    exit 1

/-- The function `get_sense_key`; the result is the string `sprintf` leaves in `buff`, which
holds `BUFSZ` bytes. -/
def get_sense_key (synp : Synset) (idx : Nat) : Run (List Char) := do
  let pos ← getsspos synp
  let word ← deref synp.words[idx]?
  let lexid ← deref synp.lexid[idx]?
  let buff : List Char :=
    match synp.headword with
    | none =>
      word ++ "%".toList ++ fmt_d pos ++ ":".toList ++ fmt_02d synp.fnum ++ ":".toList ++
        fmt_02d lexid ++ "::".toList
    | some headword =>
      word ++ "%".toList ++ fmt_d pos ++ ":".toList ++ fmt_02d synp.fnum ++ ":".toList ++
        fmt_02d lexid ++ ":".toList ++ headword ++ ":".toList ++ fmt_02d synp.headsense
  if BUFSZ ≤ buff.length then undefined else pure buff

/-- The `for` loop over the words of `nymp` inside the macro `SENSE`, over the indices
still to visit. -/
def SENSE_words (BLOCK : List Char → Run Unit) (nymp : Synset) : List Nat → Run Unit
  | [] => pure ()
  | i :: rest => do
    let word ← deref nymp.words[i]?
    if 0 = do_export word then SENSE_words BLOCK nymp rest
    else do
      let buff ← get_sense_key nymp i
      printf ("<WordSenseNode name=\"".toList ++ buff ++ "\" />\n".toList)
      BLOCK buff
      SENSE_words BLOCK nymp rest

/-- The `while(nymp)` loop inside the macro `SENSE`. -/
def SENSE_while (BLOCK : List Char → Run Unit) : SynsetPtr → Run Unit
  | .NULL => pure ()
  | .ref (.mk hereiam pos wcount words lexid fnum headword headsense nextss ptrlist) => do
    let nymp := Synset.mk hereiam pos wcount words lexid fnum headword headsense nextss ptrlist
    let p ← getsspos nymp
    if 5 ≠ p then SENSE_words BLOCK nymp (List.range nymp.wcount.toNat)
    SENSE_while BLOCK nextss

/-- The macro `SENSE(RELNAME, BLOCK)`, with the variables of `print_nyms` it refers to;
`BLOCK` is given the content of `buff`. -/
def SENSE (wn : WordNet) (word : List Char) (pos : Int) (sense_num : Int) (bitmask : Nat)
    (RELNAME : Nat) (BLOCK : List Char → Run Unit) : Run Unit :=
  if (1 <<< RELNAME) &&& bitmask ≠ 0 then
    let nymp := wn.findtheinfo_ds word pos RELNAME sense_num
    let nymp := match nymp with
      | .NULL => SynsetPtr.NULL
      | .ref sroot => sroot.ptrlist
    SENSE_while BLOCK nymp
  else pure ()

/-- The four `printf` calls of a `BLOCK` of `print_nyms`: a link of the given kind over two
word sense nodes. -/
def print_link (open_tag close_tag first second : List Char) : Run Unit := do
  printf open_tag
  printf ("   <Element class=\"WordSenseNode\" name=\"".toList ++ first ++ "\" />\n".toList)
  printf ("   <Element class=\"WordSenseNode\" name=\"".toList ++ second ++ "\" />\n".toList)
  printf close_tag

/-- The function `print_nyms`. -/
def print_nyms (wn : WordNet) (sense_key word : List Char) (sense_num : Int)
    (synp : Synset) : Run Unit := do
  let pos ← getsspos synp
  let bitmask := wn.is_defined word pos
  printf ("<WordSenseNode name=\"".toList ++ sense_key ++ "\" />\n".toList)
  let inh_open := "<InheritanceLink>\n".toList
  let inh_close := "</InheritanceLink>\n".toList
  let sim_open := "<SimilarityLink strength=\"0.8\" confidence=\"0.95\">\n".toList
  let sim_close := "</SimilarityLink>\n".toList
  let hol_open := "<HolonymLink>\n".toList
  let hol_close := "</HolonymLink>\n".toList
  SENSE wn word pos sense_num bitmask wn.HYPERPTR
    (fun buff => print_link inh_open inh_close sense_key buff)
  SENSE wn word pos sense_num bitmask wn.HYPOPTR
    (fun buff => print_link inh_open inh_close buff sense_key)
  SENSE wn word pos sense_num bitmask wn.SIMPTR
    (fun buff => print_link sim_open sim_close sense_key buff)
  SENSE wn word pos sense_num bitmask wn.ISMEMBERPTR
    (fun buff => print_link hol_open hol_close buff sense_key)
  SENSE wn word pos sense_num bitmask wn.ISSTUFFPTR
    (fun buff => print_link hol_open hol_close buff sense_key)
  SENSE wn word pos sense_num bitmask wn.ISPARTPTR
    (fun buff => print_link hol_open hol_close buff sense_key)
  SENSE wn word pos sense_num bitmask wn.HASMEMBERPTR
    (fun buff => print_link hol_open hol_close sense_key buff)
  SENSE wn word pos sense_num bitmask wn.HASSTUFFPTR
    (fun buff => print_link hol_open hol_close sense_key buff)
  SENSE wn word pos sense_num bitmask wn.HASPARTPTR
    (fun buff => print_link hol_open hol_close sense_key buff)
  if (1 <<< wn.ENTAILPTR) &&& bitmask ≠ 0 then
    fprintf_stderr ("Warning: unhandled entail for ".toList ++ sense_key ++ "\n".toList)
  if (1 <<< wn.CAUSETO) &&& bitmask ≠ 0 then
    fprintf_stderr ("Warning: unhandled causeto for ".toList ++ sense_key ++ "\n".toList)
  if (1 <<< wn.PPLPTR) &&& bitmask ≠ 0 then
    fprintf_stderr
      ("Warning: unhandled participle of verb for ".toList ++ sense_key ++ "\n".toList)
  if (1 <<< wn.PERTPTR) &&& bitmask ≠ 0 then
    fprintf_stderr ("Warning: unhandled pertaining for ".toList ++ sense_key ++ "\n".toList)

/-- The `for` loop of `print_synset` over the words of the synset, over the indices still
to visit. -/
def print_synset_words (wn : WordNet) (sense_key : List Char) (sense_num : Int)
    (synp : Synset) : List Nat → Run Unit
  | [] => pure ()
  | i :: rest => do
    let word ← deref synp.words[i]?
    if 0 = do_export word then print_synset_words wn sense_key sense_num synp rest
    else do
      printf ("<WordNode name = \"".toList ++ word ++ "\" />\n".toList)
      printf "<WordSenseLink>\n".toList
      printf ("   <Element class=\"WordNode\" name = \"".toList ++ word ++ "\" />\n".toList)
      printf ("   <Element class=\"WordSenseNode\" name = \"".toList ++ sense_key ++
        "\" />\n".toList)
      printf "</WordSenseLink>\n".toList
      print_nyms wn sense_key word sense_num synp
      print_synset_words wn sense_key sense_num synp rest

/-- The function `print_synset`. -/
def print_synset (wn : WordNet) (sense_key : List Char) (sense_num : Int)
    (synp : Synset) : Run Unit := do
  let c := synp.pos0
  let posstr : List Char ←
    if c = 'n' then pure "noun".toList
    else if c = 'v' then pure "verb".toList
    else if c = 'a' then pure "adjective".toList
    else if c = 'r' then pure "adverb".toList
    else do
      fprintf_stderr ("Error: unknown pos ".toList ++ fmt_x c ++ "\n".toList)
      exit 1
  printf ("<WordSenseNode name = \"".toList ++ sense_key ++ "\" />\n".toList)
  printf "<PartOfSpeechLink>\n".toList
  printf ("   <Element class=\"WordSenseNode\" name = \"".toList ++ sense_key ++
    "\" />\n".toList)
  printf ("   <Element class=\"ConceptNode\" name = \"".toList ++ posstr ++ "\" />\n".toList)
  printf "</PartOfSpeechLink>\n".toList
  print_synset_words wn sense_key sense_num synp (List.range synp.wcount.toNat)

/-- The local variables of `show_index` once the line is parsed. -/
structure IndexEntry where
  ipos : Int
  sense_key : List Char
  offset : Int
  sense_num : Int
  deriving DecidableEq, Repr

/-- The parsing statements of `show_index`, from `strchr(index_entry, '%')` to
`atoi(p)` for `sense_num`. `*p = 0` ends the sense key at the first space. -/
def show_index_parse (index_entry : List Char) : Run IndexEntry := do
  let p ← deref (strchr index_entry '%')
  let p := p.tail
  let ipos := atoi p
  let p ← deref (strchr index_entry ' ')
  let sense_key := index_entry.take (index_entry.length - p.length)
  let p := p.tail
  let byte_offset := p
  let offset := atoi byte_offset
  let p ← deref (strchr p ' ')
  let p := p.tail
  let sense_num := atoi p
  pure ⟨ipos, sense_key, offset, sense_num⟩

/-- The function `show_index`. -/
def show_index (wn : WordNet) (index_entry : List Char) : Run Int := do
  if do_export index_entry = 0 then return -1
  let e ← show_index_parse index_entry
  let synp := wn.read_synset e.ipos e.offset
  if 5 = e.ipos then return -2
  match synp with
  | .NULL => do
    fprintf_stderr "Error: failed to find sysnset!!\n".toList
    fprintf_stderr ("sense=".toList ++ e.sense_key ++ " pos=".toList ++ fmt_d e.ipos ++
      " off=".toList ++ fmt_d e.offset ++ "\n".toList)
    return -3
  | .ref synp => do
    if synp.hereiam ≠ e.offset then do
      fprintf_stderr "Error: bad offset!!\n".toList
      fprintf_stderr ("sense=".toList ++ e.sense_key ++ " pos=".toList ++ fmt_d e.ipos ++
        " off=".toList ++ fmt_d e.offset ++ "\n".toList)
    printf "data\n".toList
    printf "<list>\n".toList
    print_synset wn e.sense_key e.sense_num synp
    printf "</list>\n".toList
    printf [Char.ofNat 4, '\n']
    return 0

/-- The `while (1)` loop of `main`, over the buffers the successive `fgets` calls fill, from
the count `cnt` on; it yields the final count. -/
def main_loop (wn : WordNet) : List (List Char) → Int → Run Int
  | [], cnt => pure cnt
  | buff :: rest, cnt => do
    let rc ← show_index wn buff
    let cnt := if 0 = rc then cnt + 1 else cnt
    if cnt % 1000 = 0 then
      fprintf_stderr ("Info: done processing ".toList ++ fmt_d cnt ++ " word senes\n".toList)
    main_loop wn rest cnt

/-- The function `main` (`TEST_STRINGS` not defined). `fopen` yields, for a file that can be
opened, the buffers the successive `fgets` calls fill. The result is the final count. -/
def main (wn : WordNet) (argv : List (List Char))
    (fopen : List Char → Option (List (List Char))) : Run Int := do
  let sense_index := if argv.length = 2 then argv.getD 1 []
    else "/usr/share/wordnet/index.sense".toList
  match fopen sense_index with
  | none => do
    fprintf_stderr ("Fatal error: cannot open file ".toList ++ sense_index ++ "\n".toList)
    exit 1
  | some lines => do
    printf "data\n".toList
    printf "<list>\n".toList
    printf "<ConceptNode name = \"noun\" />\n".toList
    printf "<ConceptNode name = \"verb\" />\n".toList
    printf "<ConceptNode name = \"adjective\" />\n".toList
    printf "<ConceptNode name = \"adverb\" />\n".toList
    printf "</list>\n".toList
    printf [Char.ofNat 4, '\n']
    let cnt ← main_loop wn lines 0
    fprintf_stderr ("Info: finished loading ".toList ++ fmt_d cnt ++ " word senses\n".toList)
    pure cnt

/-! ## Auxiliary definitions for the statements about `show_index` -/

/-- The decimal value of a string of digits. -/
def decimal (ds : List Char) : Nat :=
  ds.foldl (fun acc c => acc * 10 + (c.toNat - 48)) 0

/-- A call returns the value `a` after printing `text` on `stdout`. -/
def Run.Returns {α : Type} (m : Run α) (a : α) (text : List Char) : Prop :=
  m.outcome = .value a ∧ m.stdout = text

/-- The part-of-speech number of a `pos` letter: 1 for `n`, 2 for `v`, 3 for `a`, 4 for `r`,
5 for `s`. -/
def pos_number (c : Char) : Int :=
  if c = 'n' then 1 else if c = 'v' then 2 else if c = 'a' then 3 else if c = 'r' then 4
  else 5

/-- The part-of-speech name of a `pos` letter: `noun` for `n`, `verb` for `v`, `adjective`
for `a`, `adverb` for `r`. -/
def pos_name (c : Char) : List Char :=
  if c = 'n' then "noun".toList else if c = 'v' then "verb".toList
  else if c = 'a' then "adjective".toList else "adverb".toList

/-- The sense key of word `idx` of a synset: `word%pos:fnum:lexid::`, or
`word%pos:fnum:lexid:headword:headsense` for a synset with a head word, the three numbers
after the part of speech in two digits. -/
def sense_key_of (synp : Synset) (idx : Nat) : List Char :=
  synp.words.getD idx [] ++ "%".toList ++ fmt_d (pos_number synp.pos0) ++ ":".toList ++
    fmt_02d synp.fnum ++ ":".toList ++ fmt_02d (synp.lexid.getD idx 0) ++
    (match synp.headword with
     | none => "::".toList
     | some headword => ":".toList ++ headword ++ ":".toList ++ fmt_02d synp.headsense)

/-- The synsets of a chain linked through `nextss`, in order. -/
def SynsetPtr.chain : SynsetPtr → List Synset
  | .NULL => []
  | .ref (.mk hereiam pos wcount words lexid fnum headword headsense nextss ptrlist) =>
    Synset.mk hereiam pos wcount words lexid fnum headword headsense nextss ptrlist ::
      nextss.chain

/-- The related synsets a search result holds: the chain that starts at the `ptrlist` of the
synset searched from; none for a `NULL` result. -/
def SynsetPtr.relatives : SynsetPtr → List Synset
  | .NULL => []
  | .ref sroot => sroot.ptrlist.chain

/-- A related synset is well formed: its `pos` letter is one of `n`, `v`, `a`, `r`, `s`
and, unless it is `s`, its `words` and `lexid` arrays hold `wcount` entries and the sense
keys of its words fit a buffer of `BUFSZ` bytes with their NUL. -/
def Synset.relative_ok (nymp : Synset) : Bool :=
  (nymp.pos0 = 'n' || nymp.pos0 = 'v' || nymp.pos0 = 'a' || nymp.pos0 = 'r' ||
    nymp.pos0 = 's') &&
  (nymp.pos0 = 's' ||
    (decide (nymp.wcount.toNat ≤ nymp.words.length) &&
     decide (nymp.wcount.toNat ≤ nymp.lexid.length) &&
     (List.range nymp.wcount.toNat).all (fun i => (sense_key_of nymp i).length < BUFSZ)))

/-- The relation chains the library hands out are well formed. -/
def WordNet.relatives_ok (wn : WordNet) : Prop :=
  ∀ (word : List Char) (pos : Int) (rel : Nat) (sense_num : Int),
    ∀ nymp ∈ (wn.findtheinfo_ds word pos rel sense_num).relatives, nymp.relative_ok = true

/-- The text of a link over two word sense nodes: the opening tag, the two elements, the
closing tag. -/
def link_xml (open_tag close_tag first second : List Char) : List Char :=
  open_tag ++
  "   <Element class=\"WordSenseNode\" name=\"".toList ++ first ++ "\" />\n".toList ++
  "   <Element class=\"WordSenseNode\" name=\"".toList ++ second ++ "\" />\n".toList ++
  close_tag

/-- The text printed for one relation: for every related synset other than an adjective
satellite, and every word of it, the word sense node of the word and the link the relation
stands for, given the sense key of the word. -/
def relation_xml (link : List Char → List Char) (relatives : List Synset) : List Char :=
  relatives.flatMap (fun nymp =>
    if nymp.pos0 = 's' then []
    else (List.range nymp.wcount.toNat).flatMap (fun i =>
      "<WordSenseNode name=\"".toList ++ sense_key_of nymp i ++ "\" />\n".toList ++
        link (sense_key_of nymp i)))

/-- The text printed for the relations of one word of a synset: the word sense node of the
sense key, then, for each of the nine relations in the order hypernym, hyponym, similar,
member holonym, substance holonym, part holonym, member meronym, substance meronym, part
meronym that the library says is defined for the word, the text of the relation. A hypernym
is an inheritance link from the sense to its relative, a hyponym one from the relative to
the sense; a holonym is a holonym link from the relative to the sense, a meronym one from
the sense to the relative. -/
def relations_xml (wn : WordNet) (sense_key word : List Char) (sense_num : Int)
    (synp : Synset) : List Char :=
  let pos := pos_number synp.pos0
  let bitmask := wn.is_defined word pos
  let found (rel : Nat) : List Synset :=
    if (1 <<< rel) &&& bitmask ≠ 0 then (wn.findtheinfo_ds word pos rel sense_num).relatives
    else []
  let inh_open := "<InheritanceLink>\n".toList
  let inh_close := "</InheritanceLink>\n".toList
  let sim_open := "<SimilarityLink strength=\"0.8\" confidence=\"0.95\">\n".toList
  let sim_close := "</SimilarityLink>\n".toList
  let hol_open := "<HolonymLink>\n".toList
  let hol_close := "</HolonymLink>\n".toList
  "<WordSenseNode name=\"".toList ++ sense_key ++ "\" />\n".toList ++
  relation_xml (fun key => link_xml inh_open inh_close sense_key key) (found wn.HYPERPTR) ++
  relation_xml (fun key => link_xml inh_open inh_close key sense_key) (found wn.HYPOPTR) ++
  relation_xml (fun key => link_xml sim_open sim_close sense_key key) (found wn.SIMPTR) ++
  relation_xml (fun key => link_xml hol_open hol_close key sense_key)
    (found wn.ISMEMBERPTR) ++
  relation_xml (fun key => link_xml hol_open hol_close key sense_key) (found wn.ISSTUFFPTR) ++
  relation_xml (fun key => link_xml hol_open hol_close key sense_key) (found wn.ISPARTPTR) ++
  relation_xml (fun key => link_xml hol_open hol_close sense_key key)
    (found wn.HASMEMBERPTR) ++
  relation_xml (fun key => link_xml hol_open hol_close sense_key key)
    (found wn.HASSTUFFPTR) ++
  relation_xml (fun key => link_xml hol_open hol_close sense_key key) (found wn.HASPARTPTR)

/-- The text printed for a synset under a sense key: the word sense node, its part of
speech link, then for every word of the synset the word node, the link from the word to the
sense and the relations of the word. -/
def synset_xml (wn : WordNet) (sense_key : List Char) (sense_num : Int) (synp : Synset) :
    List Char :=
  "<WordSenseNode name = \"".toList ++ sense_key ++ "\" />\n".toList ++
  "<PartOfSpeechLink>\n".toList ++
  "   <Element class=\"WordSenseNode\" name = \"".toList ++ sense_key ++ "\" />\n".toList ++
  "   <Element class=\"ConceptNode\" name = \"".toList ++ pos_name synp.pos0 ++
    "\" />\n".toList ++
  "</PartOfSpeechLink>\n".toList ++
  (List.range synp.wcount.toNat).flatMap (fun i =>
    "<WordNode name = \"".toList ++ synp.words.getD i [] ++ "\" />\n".toList ++
    "<WordSenseLink>\n".toList ++
    "   <Element class=\"WordNode\" name = \"".toList ++ synp.words.getD i [] ++
      "\" />\n".toList ++
    "   <Element class=\"WordSenseNode\" name = \"".toList ++ sense_key ++ "\" />\n".toList ++
    "</WordSenseLink>\n".toList ++
    relations_xml wn sense_key (synp.words.getD i []) sense_num synp)

/-- The text `show_index` prints for a synset it found: `data`, the opening of the list, the
synset, the closing of the list and the end-of-transmission byte on a line. -/
def index_xml (wn : WordNet) (sense_key : List Char) (sense_num : Int) (synp : Synset) :
    List Char :=
  "data\n".toList ++ "<list>\n".toList ++ synset_xml wn sense_key sense_num synp ++
    "</list>\n".toList ++ [Char.ofNat 4, '\n']

/-- The noun synset of `bark` in the sample database, at offset 13162297 in lexicographer
file 20, reached from `ptrlist`. -/
def bark_synset (ptrlist : SynsetPtr) : Synset :=
  .mk 13162297 "n".toList 1 ["bark".toList] [0] 20 none 0 .NULL ptrlist

/-- The noun synset `covering, natural_covering, cover` in the sample database, in
lexicographer file 17: the hypernym of `bark`. -/
def covering_synset : Synset :=
  .mk 9257949 "n".toList 3 ["covering".toList, "natural_covering".toList, "cover".toList]
    [0, 0, 0] 17 none 0 .NULL .NULL

/-- The adjective satellite synset of `abnormal` in the sample database, at offset 1533535
of the adjective data file; its `pos` is `s` and its head word is `immoderate`. -/
def abnormal_synset : Synset :=
  .mk 1533535 "s".toList 1 ["abnormal".toList] [0] 0 (some "immoderate".toList) 0 .NULL .NULL

/-- A WordNet library over a database of three synsets. `read_synset` finds `bark_synset`
in the noun file (1) and `abnormal_synset` in the adjective file (3), each at its offset,
and nothing else; the only relation defined is the hypernym of the noun `bark`, which
`findtheinfo_ds` finds for sense 1. The pointer-type constants are those of `wn.h`. -/
def wn_sample : WordNet :=
  { read_synset := fun dbase boffset =>
      if dbase = 1 ∧ boffset = 13162297 then .ref (bark_synset .NULL)
      else if dbase = 3 ∧ boffset = 1533535 then .ref abnormal_synset
      else .NULL
    is_defined := fun word pos => if word = "bark".toList ∧ pos = 1 then 1 <<< 2 else 0
    findtheinfo_ds := fun word pos rel sense_num =>
      if word = "bark".toList ∧ pos = 1 ∧ rel = 2 ∧ sense_num = 1 then
        .ref (bark_synset (.ref covering_synset))
      else .NULL
    HYPERPTR := 2
    HYPOPTR := 3
    ENTAILPTR := 4
    SIMPTR := 5
    ISMEMBERPTR := 6
    ISSTUFFPTR := 7
    ISPARTPTR := 8
    HASMEMBERPTR := 9
    HASSTUFFPTR := 10
    HASPARTPTR := 11
    CAUSETO := 14
    PPLPTR := 15
    PERTPTR := 17 }

end wni

/-! # Theorems -/

namespace opencog

/-! ## Matching lemmas -/

theorem literal_part_prefix_of_match (p : List Char) :
    ∀ u : List Char, matches_uri p u = true → literal_part p <+: u := by
  induction p with
  | nil => intro u _; simp [literal_part]
  | cons c ps ih =>
    intro u h
    by_cases hc : c = '*'
    · subst hc; simp [literal_part]
    · cases u with
      | nil => simp [matches_uri, match_uri, hc] at h
      | cons x us =>
        by_cases hx : c = x
        · subst hx
          have h2 : matches_uri ps us = true := by
            simpa [matches_uri, match_uri, hc] using h
          have h3 := ih us h2
          simpa [literal_part, List.takeWhile_cons, hc, List.cons_prefix_cons] using h3
        · simp [matches_uri, match_uri, hc, hx] at h

theorem eq_of_match_exact (p : List Char) :
    ∀ u : List Char, '*' ∉ p → matches_uri p u = true → u = p := by
  induction p with
  | nil =>
    intro u _ h
    cases u with
    | nil => rfl
    | cons x us => simp [matches_uri, match_uri] at h
  | cons c ps ih =>
    intro u hp h
    have hc : c ≠ '*' := fun e => hp (by simp [e])
    have hps : '*' ∉ ps := fun e => hp (by simp [e])
    cases u with
    | nil => simp [matches_uri, match_uri, hc] at h
    | cons x us =>
      by_cases hx : c = x
      · subst hx
        have h2 : matches_uri ps us = true := by
          simpa [matches_uri, match_uri, hc] using h
        rw [ih us hps h2]
      · simp [matches_uri, match_uri, hc, hx] at h

theorem compatible_of_common_match (p q u : List Char)
    (hp : matches_uri p u = true) (hq : matches_uri q u = true) : compatible p q = true := by
  have lp := literal_part_prefix_of_match p u hp
  have lq := literal_part_prefix_of_match q u hq
  unfold compatible
  by_cases sp : '*' ∈ p <;> by_cases sq : '*' ∈ q
  · simp only [sp, sq, if_true, Bool.or_eq_true, List.isPrefixOf_iff_prefix]
    exact List.prefix_or_prefix_of_prefix lp lq
  · have e := eq_of_match_exact q u sq hq
    subst e
    simpa [sp, sq] using lp
  · have e := eq_of_match_exact p u sp hp
    subst e
    simpa [sp, sq] using lq
  · have e1 := eq_of_match_exact p u sp hp
    have e2 := eq_of_match_exact q u sq hq
    subst e1
    subst e2
    simp [sp]

theorem find_callback_eq_none (cbs : List UriCallback) (u : List Char) :
    find_callback cbs u = none ↔ ∀ cb ∈ cbs, matches_uri cb.uri_regex u = false := by
  induction cbs with
  | nil => simp [find_callback]
  | cons cb rest ih =>
    cases h : match_uri cb.uri_regex u with
    | none => simp [find_callback, h, ih, matches_uri]
    | some w => simp [find_callback, h, matches_uri]

theorem match_uri_eq_none_of_not_prefix (p u : List Char)
    (h : ¬ literal_part p <+: u) : match_uri p u = none := by
  cases e : match_uri p u with
  | none => rfl
  | some w => exact absurd (literal_part_prefix_of_match p u (by simp [matches_uri, e])) h

theorem match_uri_eq_none_of_ne (p u : List Char) (hp : '*' ∉ p) (h : u ≠ p) :
    match_uri p u = none := by
  cases e : match_uri p u with
  | none => rfl
  | some w => exact absurd (eq_of_match_exact p u hp (by simp [matches_uri, e])) h

theorem rest_table_eq : rest_table =
    [⟨"/rest/0.2/atom/type/*".toList, .viewListPage, some "rest".toList⟩,
     ⟨"/rest/0.2/atom/".toList, .viewListPage, some "rest".toList⟩,
     ⟨"/rest/0.2/atom/*".toList, .viewAtomPage, some "rest".toList⟩,
     ⟨"/rest/0.2/server/request/*".toList, .makeRequest, some "rest".toList⟩] := by
  decide

theorem uri_table_eq : uri_table = rest_table ++
    [⟨"/opencog/atom/*".toList, .viewAtomPage, none⟩,
     ⟨"/opencog/atom".toList, .viewAtomPage, none⟩,
     ⟨"/opencog/list".toList, .viewListPage, none⟩,
     ⟨"/opencog/list/*".toList, .viewListPage, none⟩,
     ⟨"/opencog/request/*".toList, .makeRequest, none⟩] := by
  decide

theorem find_rest_atom (id : List Char) (hne : id ≠ []) (hty : ¬ "type/".toList <+: id) :
    find_callback rest_table ("/rest/0.2/atom/".toList ++ id) =
      some (⟨"/rest/0.2/atom/*".toList, .viewAtomPage, some "rest".toList⟩, id) := by
  have h0 : match_uri "/rest/0.2/atom/type/*".toList ("/rest/0.2/atom/".toList ++ id) = none := by
    apply match_uri_eq_none_of_not_prefix
    intro h
    apply hty
    simpa [literal_part, List.takeWhile_cons, List.cons_prefix_cons] using h
  have h1 : match_uri "/rest/0.2/atom/".toList ("/rest/0.2/atom/".toList ++ id) = none := by
    apply match_uri_eq_none_of_ne
    · decide
    · simpa using hne
  have h2 : match_uri "/rest/0.2/atom/*".toList ("/rest/0.2/atom/".toList ++ id) = some id := by
    simp [match_uri]
  rw [rest_table_eq]
  simp only [find_callback, h0, h1, h2]

theorem find_rest_type (t : List Char) :
    find_callback rest_table ("/rest/0.2/atom/type/".toList ++ t) =
      some (⟨"/rest/0.2/atom/type/*".toList, .viewListPage, some "rest".toList⟩, t) := by
  have h0 : match_uri "/rest/0.2/atom/type/*".toList ("/rest/0.2/atom/type/".toList ++ t) =
      some t := by
    simp [match_uri]
  rw [rest_table_eq]
  simp only [find_callback, h0]

theorem find_ui_atom (id : List Char) :
    find_callback uri_table ("/opencog/atom/".toList ++ id) =
      some (⟨"/opencog/atom/*".toList, .viewAtomPage, none⟩, id) := by
  rw [uri_table_eq, rest_table_eq]
  simp [find_callback, match_uri]

theorem uri_table_length : uri_table.length = 9 := by decide

theorem overlap_positions : ∀ i j : Fin 9, i < j →
    compatible ((uri_table.map UriCallback.uri_regex).getD i.val [])
      ((uri_table.map UriCallback.uri_regex).getD j.val []) = true →
    j.val = 2 ∧ i.val ≤ 1 := by
  decide

theorem sample_path_first : ∀ i : Fin 9,
    matches_uri ((uri_table.map UriCallback.uri_regex).getD i.val []) (sample_path i.val) = true ∧
    (∀ k : Fin 9, k < i →
      matches_uri ((uri_table.map UriCallback.uri_regex).getD k.val []) (sample_path i.val)
        = false) ∧
    (find_callback uri_table (sample_path i.val)).map Prod.fst = uri_table[i.val]? := by
  decide

theorem regex_getD (i : Nat) (p : UriCallback) (h : uri_table[i]? = some p) :
    (uri_table.map UriCallback.uri_regex).getD i [] = p.uri_regex := by
  simp [List.getD, h]

theorem lt_nine_of_get (i : Nat) (p : UriCallback) (h : uri_table[i]? = some p) : i < 9 := by
  rcases List.getElem?_eq_some.mp h with ⟨hi, _⟩
  simpa [uri_table_length] using hi

theorem type_pattern_subsumed (u : List Char)
    (h : matches_uri "/rest/0.2/atom/type/*".toList u = true) :
    matches_uri "/rest/0.2/atom/*".toList u = true := by
  have hp := literal_part_prefix_of_match _ u h
  rcases hp with ⟨w, rfl⟩
  simp [matches_uri, match_uri, literal_part, List.takeWhile_cons]

/-! ## The route table (C1 to C4) -/

/-- C1: the REST route table is the four (pattern, callback) pairs of `setupURIsForREST` in
registration order; with first-match selection, every non-empty id that does not start with
`type/` makes `/rest/0.2/atom/<id>` select `viewAtomPage` with the wildcard standing for the
id, every type name `t` makes `/rest/0.2/atom/type/<t>` select `viewListPage` with the
wildcard standing for `t`, and `/nope` selects no callback. -/
theorem rest_route_selection :
    rest_table.map (fun cb => (cb.uri_regex, cb.func)) =
      [("/rest/0.2/atom/type/*".toList, Callback.viewListPage),
       ("/rest/0.2/atom/".toList, Callback.viewListPage),
       ("/rest/0.2/atom/*".toList, Callback.viewAtomPage),
       ("/rest/0.2/server/request/*".toList, Callback.makeRequest)] ∧
    (∀ id : List Char, id ≠ [] → ¬ "type/".toList <+: id →
      (find_callback rest_table ("/rest/0.2/atom/".toList ++ id)).map
        (fun r => (r.1.func, r.2)) = some (Callback.viewAtomPage, id)) ∧
    (∀ t : List Char,
      (find_callback rest_table ("/rest/0.2/atom/type/".toList ++ t)).map
        (fun r => (r.1.func, r.2)) = some (Callback.viewListPage, t)) ∧
    find_callback rest_table "/nope".toList = none := by
  refine ⟨by decide, ?_, ?_, by decide⟩
  · intro id hne hty
    rw [find_rest_atom id hne hty]
    rfl
  · intro t
    rw [find_rest_type t]
    rfl

/-- Witness of C1 at the id `123` and the type name `noun`. -/
theorem rest_route_selection_witness :
    "123".toList ≠ [] ∧ ¬ "type/".toList <+: "123".toList ∧
    (find_callback rest_table "/rest/0.2/atom/123".toList).map (fun r => (r.1.func, r.2)) =
      some (Callback.viewAtomPage, "123".toList) ∧
    (find_callback rest_table "/rest/0.2/atom/type/noun".toList).map
      (fun r => (r.1.func, r.2)) = some (Callback.viewListPage, "noun".toList) :=
  ⟨by decide, by decide, rest_route_selection.2.1 "123".toList (by decide) (by decide),
   rest_route_selection.2.2.1 "noun".toList⟩

/-- C2 fails as stated: for the id `123` and the type `noun` the three shapes are not all
routed by the REST table to one callback, because the by-id path shape selects
`viewAtomPage` and the collection filter shape selects `viewListPage`. -/
theorem entity_shapes_counterexample :
    ¬ ∃ cb : Callback,
      selected rest_table "/rest/0.2/atom/123".toList = some cb ∧
      selected rest_table (strip_query "/rest/0.2/atom?handle=123".toList) = some cb ∧
      selected rest_table "/rest/0.2/atom/type/noun".toList = some cb := by
  rintro ⟨cb, h1, _, h3⟩
  have e1 : selected rest_table "/rest/0.2/atom/123".toList = some Callback.viewAtomPage := by
    decide
  have e3 : selected rest_table "/rest/0.2/atom/type/noun".toList =
      some Callback.viewListPage := by
    decide
  rw [e1] at h1
  rw [e3] at h3
  have h : Callback.viewAtomPage = Callback.viewListPage :=
    (Option.some.inj h1).trans (Option.some.inj h3).symm
  cases h

/-- C2 as amended: the three shapes do not resolve to one callback. For every non-empty id
that does not start with `type/` and every type name, the REST table routes the by-id path
shape to `viewAtomPage` and the collection filter shape to `viewListPage`, two different
callbacks, and it does not route the by-query shape (path `/rest/0.2/atom` once the query is
stripped) to `viewAtomPage`, nor does the full table. The by-query shape of an entity is
registered under the UI prefix, where `/opencog/atom?handle=<id>` and `/opencog/atom/<id>`
both select `viewAtomPage`. -/
theorem entity_shapes_routing (id t : List Char) (hne : id ≠ [])
    (hty : ¬ "type/".toList <+: id) :
    selected rest_table ("/rest/0.2/atom/".toList ++ id) = some Callback.viewAtomPage ∧
    selected rest_table ("/rest/0.2/atom/type/".toList ++ t) = some Callback.viewListPage ∧
    selected rest_table ("/rest/0.2/atom/".toList ++ id) ≠
      selected rest_table ("/rest/0.2/atom/type/".toList ++ t) ∧
    selected rest_table (strip_query ("/rest/0.2/atom?handle=".toList ++ id))
      ≠ some Callback.viewAtomPage ∧
    selected uri_table (strip_query ("/rest/0.2/atom?handle=".toList ++ id))
      ≠ some Callback.viewAtomPage ∧
    selected uri_table (strip_query ("/opencog/atom?handle=".toList ++ id))
      = some Callback.viewAtomPage ∧
    selected uri_table ("/opencog/atom/".toList ++ id) = some Callback.viewAtomPage := by
  have h1 : selected rest_table ("/rest/0.2/atom/".toList ++ id) =
      some Callback.viewAtomPage := by
    simp only [selected, find_rest_atom id hne hty, Option.map_some']
  have h2 : selected rest_table ("/rest/0.2/atom/type/".toList ++ t) =
      some Callback.viewListPage := by
    simp only [selected, find_rest_type t, Option.map_some']
  have hq : strip_query ("/rest/0.2/atom?handle=".toList ++ id) = "/rest/0.2/atom".toList := by
    simp [strip_query, List.takeWhile_cons]
  refine ⟨h1, h2, ?_, ?_, ?_, ?_, ?_⟩
  · rw [h1, h2]
    decide
  · rw [hq]
    decide
  · rw [hq]
    decide
  · have h : strip_query ("/opencog/atom?handle=".toList ++ id) = "/opencog/atom".toList := by
      simp [strip_query, List.takeWhile_cons]
    rw [h]
    decide
  · simp only [selected, find_ui_atom id, Option.map_some']

/-- Witness of the amended C2 at the id `123` and the type `noun`. -/
theorem entity_shapes_routing_witness :
    "123".toList ≠ [] ∧ ¬ "type/".toList <+: "123".toList ∧
    selected rest_table "/rest/0.2/atom/123".toList = some Callback.viewAtomPage ∧
    selected rest_table "/rest/0.2/atom/type/noun".toList = some Callback.viewListPage ∧
    selected rest_table "/rest/0.2/atom/123".toList ≠
      selected rest_table "/rest/0.2/atom/type/noun".toList ∧
    selected rest_table (strip_query "/rest/0.2/atom?handle=123".toList)
      ≠ some Callback.viewAtomPage ∧
    selected uri_table (strip_query "/rest/0.2/atom?handle=123".toList)
      ≠ some Callback.viewAtomPage ∧
    selected uri_table (strip_query "/opencog/atom?handle=123".toList)
      = some Callback.viewAtomPage ∧
    selected uri_table "/opencog/atom/123".toList = some Callback.viewAtomPage :=
  ⟨by decide, by decide,
    entity_shapes_routing "123".toList "noun".toList (by decide) (by decide)⟩

/-- C3 fails as stated: the path `/rest/0.2/atom/type/noun` is matched by two of the nine
registered patterns. -/
theorem one_pattern_counterexample :
    ¬ (uri_table.countP
        (fun cb => matches_uri cb.uri_regex "/rest/0.2/atom/type/noun".toList) ≤ 1) := by
  decide

/-- C3 as amended: the nine patterns are not pairwise disjoint, but whenever two registered
patterns match one request path, the later registered of the two is `/rest/0.2/atom/*`, the
earlier one is `/rest/0.2/atom/type/*` or `/rest/0.2/atom/`, and first-match selection takes
the earlier one. -/
theorem overlap_only_under_rest_atom (u : List Char) (i j : Nat) (p q : UriCallback)
    (hij : i < j) (hp : uri_table[i]? = some p) (hq : uri_table[j]? = some q)
    (mp : matches_uri p.uri_regex u = true) (mq : matches_uri q.uri_regex u = true) :
    q.uri_regex = "/rest/0.2/atom/*".toList ∧
    (p.uri_regex = "/rest/0.2/atom/type/*".toList ∨ p.uri_regex = "/rest/0.2/atom/".toList) ∧
    (find_callback uri_table u).map Prod.fst = some p := by
  have hi := lt_nine_of_get i p hp
  have hj := lt_nine_of_get j q hq
  have hc := compatible_of_common_match _ _ u mp mq
  rw [← regex_getD i p hp, ← regex_getD j q hq] at hc
  obtain ⟨hj2, hi1⟩ := overlap_positions ⟨i, hi⟩ ⟨j, hj⟩ hij hc
  simp only at hj2 hi1
  subst hj2
  have eq : q = ⟨"/rest/0.2/atom/*".toList, .viewAtomPage, some "rest".toList⟩ := by
    have : uri_table[2]? =
        some ⟨"/rest/0.2/atom/*".toList, .viewAtomPage, some "rest".toList⟩ := by
      decide
    rw [this] at hq
    exact (Option.some.inj hq).symm
  subst eq
  refine ⟨rfl, ?_⟩
  rcases Nat.le_one_iff_eq_zero_or_eq_one.mp hi1 with h0 | h1
  · subst h0
    have : uri_table[0]? =
        some ⟨"/rest/0.2/atom/type/*".toList, .viewListPage, some "rest".toList⟩ := by decide
    rw [this] at hp
    have e := (Option.some.inj hp).symm
    subst e
    refine ⟨Or.inl rfl, ?_⟩
    cases hm : match_uri "/rest/0.2/atom/type/*".toList u with
    | none =>
      have mp2 : matches_uri "/rest/0.2/atom/type/*".toList u = true := mp
      unfold matches_uri at mp2
      rw [hm] at mp2
      cases mp2
    | some w =>
      rw [uri_table_eq, rest_table_eq]
      simp only [List.cons_append, find_callback, hm, Option.map_some']
  · subst h1
    have : uri_table[1]? =
        some ⟨"/rest/0.2/atom/".toList, .viewListPage, some "rest".toList⟩ := by decide
    rw [this] at hp
    have e := (Option.some.inj hp).symm
    subst e
    refine ⟨Or.inr rfl, ?_⟩
    have hu := eq_of_match_exact _ u (by decide) mp
    subst hu
    decide

/-- Witness of the amended C3 at the path `/rest/0.2/atom/type/noun`. -/
theorem overlap_only_under_rest_atom_witness :
    (⟨"/rest/0.2/atom/*".toList, .viewAtomPage, some "rest".toList⟩ : UriCallback).uri_regex
      = "/rest/0.2/atom/*".toList ∧
    ((⟨"/rest/0.2/atom/type/*".toList, .viewListPage, some "rest".toList⟩ :
        UriCallback).uri_regex = "/rest/0.2/atom/type/*".toList ∨
      (⟨"/rest/0.2/atom/type/*".toList, .viewListPage, some "rest".toList⟩ :
        UriCallback).uri_regex = "/rest/0.2/atom/".toList) ∧
    (find_callback uri_table "/rest/0.2/atom/type/noun".toList).map Prod.fst =
      some ⟨"/rest/0.2/atom/type/*".toList, .viewListPage, some "rest".toList⟩ :=
  overlap_only_under_rest_atom "/rest/0.2/atom/type/noun".toList 0 2
    ⟨"/rest/0.2/atom/type/*".toList, .viewListPage, some "rest".toList⟩
    ⟨"/rest/0.2/atom/*".toList, .viewAtomPage, some "rest".toList⟩
    (by decide) (by decide) (by decide) (by decide) (by decide)

/-- C4: in the registration sequence of `setupURIs`, whenever a registered pattern matches
only paths that another registered pattern with a wildcard also matches, the former is
registered before the latter; and no route is shadowed: each of the nine registered patterns
has a request path for which it is the first pattern in registration order to match, so that
first-match selection picks its registration. -/
theorem registration_order_contract :
    (∀ (i j : Nat) (p q : UriCallback), uri_table[i]? = some p → uri_table[j]? = some q →
      i ≠ j → '*' ∈ q.uri_regex →
      (∀ u, matches_uri p.uri_regex u = true → matches_uri q.uri_regex u = true) → i < j) ∧
    uri_table.length = 9 ∧
    (∀ (i : Nat) (p : UriCallback), uri_table[i]? = some p →
      ∃ u, matches_uri p.uri_regex u = true ∧
        (∀ (k : Nat) (q : UriCallback), k < i → uri_table[k]? = some q →
          matches_uri q.uri_regex u = false) ∧
        (find_callback uri_table u).map Prod.fst = some p) := by
  refine ⟨?_, uri_table_length, ?_⟩
  · intro i j p q hp hq hne _ hsub
    have hi := lt_nine_of_get i p hp
    have hj := lt_nine_of_get j q hq
    obtain ⟨hm, hfirst, _⟩ := sample_path_first ⟨i, hi⟩
    simp only at hm hfirst
    rw [regex_getD i p hp] at hm
    have hqm := hsub _ hm
    by_contra hlt
    have hji : j < i := by omega
    have := hfirst ⟨j, hj⟩ hji
    simp only at this
    rw [regex_getD j q hq, hqm] at this
    cases this
  · intro i p hp
    have hi := lt_nine_of_get i p hp
    obtain ⟨hm, hfirst, hsel⟩ := sample_path_first ⟨i, hi⟩
    simp only at hm hfirst hsel
    refine ⟨sample_path i, ?_, ?_, ?_⟩
    · rw [regex_getD i p hp] at hm
      exact hm
    · intro k q hk hq
      have := hfirst ⟨k, by omega⟩ hk
      simp only at this
      rw [regex_getD k q hq] at this
      exact this
    · rw [hsel, hp]

/-- Witness of C4: `/rest/0.2/atom/type/*` matches only paths that `/rest/0.2/atom/*` matches,
and it is registered at position 0, before position 2. -/
theorem registration_order_contract_witness :
    (∀ u, matches_uri "/rest/0.2/atom/type/*".toList u = true →
      matches_uri "/rest/0.2/atom/*".toList u = true) ∧ (0 : Nat) < 2 :=
  ⟨type_pattern_subsumed, registration_order_contract.1 0 2
    ⟨"/rest/0.2/atom/type/*".toList, .viewListPage, some "rest".toList⟩
    ⟨"/rest/0.2/atom/*".toList, .viewAtomPage, some "rest".toList⟩
    (by decide) (by decide) (by decide) (by decide) type_pattern_subsumed⟩

/-! ## Status lines (C5) -/

theorem c_str_eq_self (m : List Char) (h : Char.ofNat 0 ∉ m) : c_str m = m := by
  unfold c_str
  rw [List.takeWhile_eq_self_iff]
  intro c hc
  have : c ≠ Char.ofNat 0 := fun e => h (e ▸ hc)
  simpa using this

/-- C5: for every message without a NUL byte, `return400` writes exactly
`HTTP/1.1 400 <message>\r\n`, `return500` writes exactly `HTTP/1.1 500 <message>\r\n` and
`return404` writes exactly `HTTP/1.1 404 Not found.\r\n` to the connection: the status code
does not depend on the message and the message is passed through unchanged. -/
theorem status_line_written (conn : mg_connection) (m : List Char) (h : Char.ofNat 0 ∉ m) :
    (WebModule.return400 conn m).written =
      conn.written ++ ("HTTP/1.1 400 ".toList ++ m ++ "\r\n".toList) ∧
    (WebModule.return500 conn m).written =
      conn.written ++ ("HTTP/1.1 500 ".toList ++ m ++ "\r\n".toList) ∧
    (WebModule.return404 conn).written =
      conn.written ++ "HTTP/1.1 404 Not found.\r\n".toList := by
  refine ⟨?_, ?_, ?_⟩
  · simp [WebModule.return400, mg_printf, c_str_eq_self m h, format_s]
  · simp [WebModule.return500, mg_printf, c_str_eq_self m h, format_s]
  · simp [WebModule.return404, mg_printf, format_s]

/-- Witness of C5 at a message that holds formatting directives. -/
theorem status_line_written_witness :
    Char.ofNat 0 ∉ "100% of %s <b>&amp;</b>".toList ∧
    (WebModule.return400 ⟨[]⟩ "100% of %s <b>&amp;</b>".toList).written =
      "HTTP/1.1 400 100% of %s <b>&amp;</b>\r\n".toList ∧
    (WebModule.return500 ⟨[]⟩ "100% of %s <b>&amp;</b>".toList).written =
      "HTTP/1.1 500 100% of %s <b>&amp;</b>\r\n".toList ∧
    (WebModule.return404 ⟨[]⟩).written = "HTTP/1.1 404 Not found.\r\n".toList :=
  ⟨by decide, status_line_written ⟨[]⟩ "100% of %s <b>&amp;</b>".toList (by decide)⟩

/-! ## Construction and `init` (C7, C8) -/

/-- C7 fails as stated: no configuration gives a constructed `WebModule` a timeout other
than 100. -/
theorem timeout_configurable_counterexample :
    ¬ ∃ (config : Config) (cogserver : CogServer),
      (WebModule.WebModule config cogserver).1.timeout ≠ 100 := by
  rintro ⟨config, cogserver, h⟩
  exact h rfl

/-- C7 as amended: the request timeout is not read from the configuration, the constructor
leaves `timeout = 100` under every configuration; what the configuration changes is the port
(`Web_PORT`) and the server address (`Web_SERVER`). -/
theorem timeout_fixed :
    (∀ (config : Config) (cogserver : CogServer),
      (WebModule.WebModule config cogserver).1.timeout = 100) ∧
    (∃ (config : Config) (cogserver : CogServer),
      (WebModule.WebModule config cogserver).1._port ≠ 17034) ∧
    (∃ (config : Config) (cogserver : CogServer),
      (WebModule.WebModule config cogserver).1.serverAddress ≠ "http://localhost".toList) := by
  refine ⟨fun _ _ => rfl, ?_, ?_⟩
  · exact ⟨⟨fun _ => true, fun _ => "http://example.org".toList, fun _ => 8080⟩, [],
      by decide⟩
  · exact ⟨⟨fun _ => true, fun _ => "http://example.org".toList, fun _ => 8080⟩, [],
      by decide⟩

/-- C8: under a configuration without a `Web_PORT` key the constructed `WebModule` has port
17034 and timeout 100, and `init` passes `17034` in decimal to the HTTP server as its
`ports` option (the first of the three options it sets, and the only `ports` one). -/
theorem default_port_and_timeout (config : Config) (cogserver : CogServer) (build : Build)
    (file_exists : List Char → Bool) (h : config.has "Web_PORT".toList = false) :
    (WebModule.WebModule config cogserver).1._port = 17034 ∧
    (WebModule.WebModule config cogserver).1.timeout = 100 ∧
    ∃ (ctx : mg_context) (root : Option (List Char)),
      (WebModule.init (WebModule.WebModule config cogserver).1 build file_exists).ctx
        = some ctx ∧
      ctx.options = [("ports".toList, some "17034".toList), ("root".toList, root),
        ("dir_list".toList, some "no".toList)] := by
  have hp : (WebModule.WebModule config cogserver).1._port = 17034 := by
    simp only [WebModule.WebModule, h, Bool.false_eq_true, if_false]
    rfl
  refine ⟨hp, rfl, _, (DEFAULT_WEB_PATH build).getD
    (WebModule.web_path_index file_exists (DEFAULT_WEB_PATH build) 0) none, rfl, ?_⟩
  have hd : Nat.toDigits 10 17034 = "17034".toList := by decide
  simp only [WebModule.init, hp, hd]
  rfl

/-- Witness of C8 at the empty configuration. -/
theorem default_port_and_timeout_witness :
    (⟨fun _ => false, fun _ => [], fun _ => 0⟩ : Config).has "Web_PORT".toList = false ∧
    (WebModule.WebModule ⟨fun _ => false, fun _ => [], fun _ => 0⟩ []).1._port = 17034 :=
  ⟨rfl, (default_port_and_timeout ⟨fun _ => false, fun _ => [], fun _ => 0⟩ []
    ⟨"/usr/share/opencog".toList, false⟩ (fun _ => false) rfl).1⟩

/-! ## The life cycle (C9) -/

/-- C9, evaluated on the code: along the life cycle the embedded server runs in the states
after `init` and up to `mg_stop`, but `rest_mod` is already `NULL` in the two states between
the destructor's `rest_mod = NULL` and its `mg_stop(ctx)`. -/
theorem rest_mod_along_lifecycle (config : Config) (build : Build)
    (file_exists : List Char → Bool) :
    (Process.trace config build file_exists Process.start lifecycle).map
      (fun p => (p.server_running, p.rest_mod)) =
    [(false, Pointer.NULL), (false, Pointer.module), (true, Pointer.module),
     (true, Pointer.NULL), (true, Pointer.NULL), (false, Pointer.NULL)] := by
  rfl

end opencog

namespace wni

/-! ## Parsing an index line -/

theorem Run.pure_bind {α β : Type} (a : α) (f : α → Run β) : (Run.pure a).bind f = f a := by
  simp [Run.bind, Run.pure]

theorem strchr_append (a b : List Char) (c : Char) (h : c ∉ a) :
    strchr (a ++ c :: b) c = some (c :: b) := by
  induction a with
  | nil => simp [strchr]
  | cons x xs ih =>
    have hx : x ≠ c := fun e => h (by simp [e])
    have hxs : c ∉ xs := fun e => h (by simp [e])
    simp [strchr, hx, ih hxs]

theorem digits_value_eq (s : List Char) : ∀ acc : Nat,
    digits_value s acc =
      (s.takeWhile isdigit).foldl (fun acc c => acc * 10 + (c.toNat - 48)) acc := by
  induction s with
  | nil => intro acc; simp [digits_value]
  | cons c cs ih =>
    intro acc
    by_cases hc : isdigit c = true
    · simp [digits_value, hc, List.takeWhile_cons, ih]
    · simp [digits_value, hc, List.takeWhile_cons]

theorem takeWhile_append_stop (p : Char → Bool) (a c : List Char) (b : Char)
    (hb : p b = false) : (a ++ b :: c).takeWhile p = a.takeWhile p := by
  induction a with
  | nil => simp [List.takeWhile_cons, hb]
  | cons x xs ih =>
    by_cases hx : p x = true
    · simp [List.takeWhile_cons, hx, ih]
    · simp [List.takeWhile_cons, hx]

theorem takeWhile_digits (a c : List Char) (b : Char) (ha : ∀ x ∈ a, isdigit x = true)
    (hb : isdigit b = false) : (a ++ b :: c).takeWhile isdigit = a := by
  rw [takeWhile_append_stop isdigit a c b hb, List.takeWhile_eq_self_iff]
  exact ha

theorem isdigit_facts (c : Char) (h : isdigit c = true) :
    isspace c = false ∧ c ≠ '-' ∧ c ≠ '+' := by
  simp only [isdigit, Bool.and_eq_true, decide_eq_true_eq] at h
  refine ⟨?_, ?_, ?_⟩
  · have h1 : c ≠ ' ' := by
      rintro rfl
      revert h
      decide
    simp only [isspace, Bool.or_eq_false_iff, decide_eq_false_iff_not, Bool.and_eq_false_iff,
      not_le]
    exact ⟨h1, Or.inr (by omega)⟩
  · rintro rfl
    revert h
    decide
  · rintro rfl
    revert h
    decide

theorem to_int_of_fit (v : Int) (h0 : 0 ≤ v) (h1 : v ≤ 2147483647) : to_int v = v := by
  unfold to_int
  omega

theorem atoi_of_digit (c : Char) (cs : List Char) (h : isdigit c = true)
    (hv : decimal ((c :: cs).takeWhile isdigit) ≤ 2147483647) :
    atoi (c :: cs) = (decimal ((c :: cs).takeWhile isdigit) : Int) := by
  obtain ⟨h1, h2, h3⟩ := isdigit_facts c h
  have hd : (c :: cs).dropWhile isspace = c :: cs := by
    simp [List.dropWhile_cons, h1]
  have hval : (digits_value (c :: cs) 0 : Int) = (decimal ((c :: cs).takeWhile isdigit) : Int) := by
    rw [digits_value_eq]
    rfl
  have hv' : (decimal ((c :: cs).takeWhile isdigit) : Int) ≤ 2147483647 := by exact_mod_cast hv
  have hs : strtol (c :: cs) = (decimal ((c :: cs).takeWhile isdigit) : Int) := by
    unfold strtol
    simp only [hd, h2, h3, if_false, hval]
    rw [if_neg (by omega), if_neg (by omega)]
  unfold atoi
  rw [hs]
  exact to_int_of_fit _ (by omega) hv'


theorem not_mem_of_digits (c : Char) (a : List Char) (ha : ∀ x ∈ a, isdigit x = true)
    (hc : isdigit c = false) : c ∉ a := by
  intro h
  rw [ha c h] at hc
  cases hc

theorem atoi_field (a c : List Char) (b : Char) (hne : a ≠ [])
    (ha : ∀ x ∈ a, isdigit x = true) (hb : isdigit b = false)
    (hv : decimal a ≤ 2147483647) : atoi (a ++ b :: c) = (decimal a : Int) := by
  have ht := takeWhile_digits a c b ha hb
  cases a with
  | nil => exact absurd rfl hne
  | cons d ds =>
    have hd : isdigit d = true := ha d (by simp)
    have := atoi_of_digit d (ds ++ b :: c) hd (by
      rw [← List.cons_append, ht]; exact hv)
    rw [← List.cons_append, ht] at this
    exact this

theorem show_index_parse_entry (word pos_s rest_key offset_s sense_s tail : List Char)
    (hl1 : '%' ∉ word) (hl2 : ' ' ∉ word)
    (hp1 : pos_s ≠ []) (hp2 : ∀ x ∈ pos_s, isdigit x = true)
    (hr1 : ∀ x, rest_key.head? = some x → isdigit x = false) (hr2 : ' ' ∉ rest_key)
    (ho1 : offset_s ≠ []) (ho2 : ∀ x ∈ offset_s, isdigit x = true)
    (hs1 : sense_s ≠ []) (hs2 : ∀ x ∈ sense_s, isdigit x = true)
    (hpv : decimal pos_s ≤ 2147483647) (hov : decimal offset_s ≤ 2147483647)
    (hsv : decimal sense_s ≤ 2147483647) :
    show_index_parse
      (word ++ '%' :: pos_s ++ rest_key ++ ' ' :: offset_s ++ ' ' :: sense_s ++ ' ' :: tail) =
    Run.pure ⟨decimal pos_s, word ++ '%' :: pos_s ++ rest_key, decimal offset_s,
      decimal sense_s⟩ := by
  have hsp : isdigit ' ' = false := by decide
  have hpc : isdigit '%' = false := by decide
  set R2 := sense_s ++ ' ' :: tail with hR2
  set R := offset_s ++ ' ' :: R2 with hR
  set key := word ++ '%' :: pos_s ++ rest_key with hkey
  have hline : word ++ '%' :: pos_s ++ rest_key ++ ' ' :: offset_s ++ ' ' :: sense_s ++
      ' ' :: tail = key ++ ' ' :: R := by
    simp [hkey, hR, hR2]
  have hline2 : key ++ ' ' :: R = word ++ '%' :: (pos_s ++ (rest_key ++ ' ' :: R)) := by
    simp [hkey]
  have hkeysp : ' ' ∉ key := by
    simp only [hkey, List.mem_append, List.mem_cons, not_or]
    exact ⟨⟨hl2, by decide, not_mem_of_digits ' ' pos_s hp2 hsp⟩, hr2⟩
  have e1 : strchr (key ++ ' ' :: R) '%' = some ('%' :: (pos_s ++ (rest_key ++ ' ' :: R))) := by
    rw [hline2, strchr_append _ _ _ hl1]
  have e2 : atoi (pos_s ++ (rest_key ++ ' ' :: R)) = (decimal pos_s : Int) := by
    cases hrk : rest_key with
    | nil => exact atoi_field pos_s R ' ' hp1 hp2 hsp hpv
    | cons x xs =>
      have hx : isdigit x = false := hr1 x (by simp [hrk])
      exact atoi_field pos_s (xs ++ ' ' :: R) x hp1 hp2 hx hpv
  have e3 : strchr (key ++ ' ' :: R) ' ' = some (' ' :: R) := strchr_append _ _ _ hkeysp
  have e4 : (key ++ ' ' :: R).take ((key ++ ' ' :: R).length - (' ' :: R).length) = key := by
    have : (key ++ ' ' :: R).length - (' ' :: R).length = key.length := by
      simp
    rw [this, List.take_left']
    rfl
  have e5 : atoi R = (decimal offset_s : Int) :=
    atoi_field offset_s R2 ' ' ho1 ho2 hsp hov
  have e6 : strchr R ' ' = some (' ' :: R2) :=
    strchr_append _ _ _ (not_mem_of_digits ' ' offset_s ho2 hsp)
  have e7 : atoi R2 = (decimal sense_s : Int) :=
    atoi_field sense_s tail ' ' hs1 hs2 hsp hsv
  rw [hline]
  simp only [show_index_parse, bind, pure, e1, e2, e3, e4, e5, e6, e7, deref, List.tail_cons,
    Run.pure_bind]

/-! ## Calls that return -/

theorem returns_pure {α : Type} (a : α) : (Run.pure a).Returns a [] := ⟨rfl, rfl⟩

theorem returns_bind {α β : Type} {m : Run α} {f : α → Run β} {a : α} {b : β}
    {t t' : List Char} (h1 : m.Returns a t) (h2 : (f a).Returns b t') :
    (m.bind f).Returns b (t ++ t') := by
  obtain ⟨o1, s1⟩ := h1
  obtain ⟨o2, s2⟩ := h2
  simp [Run.Returns, Run.bind, o1, o2, s1, s2]

theorem returns_congr {α : Type} {m : Run α} {a : α} {t t' : List Char}
    (h : m.Returns a t) (e : t = t') : m.Returns a t' := e ▸ h

theorem returns_printf (t : List Char) : (printf t).Returns () t := ⟨rfl, rfl⟩

theorem returns_fprintf_stderr (t : List Char) : (fprintf_stderr t).Returns () [] :=
  ⟨rfl, rfl⟩

theorem returns_warning (c : Prop) [Decidable c] (t : List Char) :
    (if c then fprintf_stderr t else Run.pure PUnit.unit).Returns () [] := by
  by_cases h : c
  · simp only [h, if_true]; exact returns_fprintf_stderr t
  · simp only [h, if_false]; exact returns_pure _

theorem getsspos_eq (synp : Synset)
    (h : synp.pos0 = 'n' ∨ synp.pos0 = 'v' ∨ synp.pos0 = 'a' ∨ synp.pos0 = 'r' ∨
      synp.pos0 = 's') :
    getsspos synp = Run.pure (pos_number synp.pos0) := by
  rcases h with h | h | h | h | h <;> simp [getsspos, pos_number, h, pure]

theorem get_sense_key_eq (synp : Synset) (idx : Nat)
    (hp : synp.pos0 = 'n' ∨ synp.pos0 = 'v' ∨ synp.pos0 = 'a' ∨ synp.pos0 = 'r' ∨
      synp.pos0 = 's')
    (hw : idx < synp.words.length) (hl : idx < synp.lexid.length)
    (hb : (sense_key_of synp idx).length < BUFSZ) :
    get_sense_key synp idx = Run.pure (sense_key_of synp idx) := by
  have e1 : synp.words[idx]? = some (synp.words.getD idx []) := by
    simp [List.getD, List.getElem?_eq_getElem hw]
  have e2 : synp.lexid[idx]? = some (synp.lexid.getD idx 0) := by
    simp [List.getD, List.getElem?_eq_getElem hl]
  have hb' : ¬ (BUFSZ ≤ (sense_key_of synp idx).length) := by omega
  unfold sense_key_of at hb' ⊢
  cases hh : synp.headword with
  | none =>
    simp only [hh, List.append_assoc] at hb' ⊢
    simp only [get_sense_key, bind, pure, getsspos_eq synp hp, Run.pure_bind, e1, e2, deref, hh,
      List.append_assoc, hb', if_false]
  | some headword =>
    simp only [hh, List.append_assoc] at hb' ⊢
    simp only [get_sense_key, bind, pure, getsspos_eq synp hp, Run.pure_bind, e1, e2, deref, hh,
      List.append_assoc, hb', if_false]

theorem do_export_eq (word : List Char) : do_export word = 1 := by
  simp [do_export, skip_colocations]

theorem relative_ok_pos (nymp : Synset) (h : nymp.relative_ok = true) :
    nymp.pos0 = 'n' ∨ nymp.pos0 = 'v' ∨ nymp.pos0 = 'a' ∨ nymp.pos0 = 'r' ∨
      nymp.pos0 = 's' := by
  simp only [Synset.relative_ok, Bool.and_eq_true, Bool.or_eq_true, decide_eq_true_eq] at h
  tauto

theorem relative_ok_words (nymp : Synset) (h : nymp.relative_ok = true)
    (hs : nymp.pos0 ≠ 's') :
    ∀ i ∈ List.range nymp.wcount.toNat,
      i < nymp.words.length ∧ i < nymp.lexid.length ∧ (sense_key_of nymp i).length < BUFSZ := by
  simp only [Synset.relative_ok, Bool.and_eq_true, Bool.or_eq_true, decide_eq_true_eq,
    List.all_eq_true] at h
  rcases h.2 with h2 | ⟨⟨hw, hl⟩, hk⟩
  · exact absurd h2 hs
  · intro i hi
    have hi' : i < nymp.wcount.toNat := List.mem_range.mp hi
    exact ⟨by omega, by omega, hk i hi⟩

theorem SENSE_words_returns (BLOCK : List Char → Run Unit) (link : List Char → List Char)
    (hB : ∀ buff, (BLOCK buff).Returns () (link buff)) (nymp : Synset)
    (hp : nymp.pos0 = 'n' ∨ nymp.pos0 = 'v' ∨ nymp.pos0 = 'a' ∨ nymp.pos0 = 'r' ∨
      nymp.pos0 = 's') :
    ∀ idxs : List Nat,
      (∀ i ∈ idxs, i < nymp.words.length ∧ i < nymp.lexid.length ∧
        (sense_key_of nymp i).length < BUFSZ) →
      (SENSE_words BLOCK nymp idxs).Returns ()
        (idxs.flatMap (fun i =>
          "<WordSenseNode name=\"".toList ++ sense_key_of nymp i ++ "\" />\n".toList ++
            link (sense_key_of nymp i))) := by
  intro idxs
  induction idxs with
  | nil => intro _; exact returns_pure ()
  | cons i rest ih =>
    intro h
    obtain ⟨hw, hl, hb⟩ := h i (by simp)
    have hrest := ih (fun j hj => h j (by simp [hj]))
    have e1 : nymp.words[i]? = some (nymp.words.getD i []) := by
      simp [List.getD, List.getElem?_eq_getElem hw]
    have hne : ¬ ((0 : Int) = 1) := by decide
    simp only [SENSE_words, bind, e1, deref, Run.pure_bind, do_export_eq, hne, if_false,
      get_sense_key_eq nymp i hp hw hl hb]
    refine returns_congr (returns_bind (returns_printf _) (returns_bind (hB _) hrest)) ?_
    simp [List.flatMap_cons]

theorem SENSE_while_returns (BLOCK : List Char → Run Unit) (link : List Char → List Char)
    (hB : ∀ buff, (BLOCK buff).Returns () (link buff)) :
    ∀ (n : Nat) (ptr : SynsetPtr), ptr.chain.length = n →
      (∀ nymp ∈ ptr.chain, nymp.relative_ok = true) →
      (SENSE_while BLOCK ptr).Returns () (relation_xml link ptr.chain) := by
  intro n
  induction n with
  | zero =>
    intro ptr hn _
    cases ptr with
    | NULL => exact returns_pure ()
    | ref synp =>
      cases synp
      simp [SynsetPtr.chain] at hn
  | succ n ih =>
    intro ptr hn hok
    cases ptr with
    | NULL => simp [SynsetPtr.chain] at hn
    | ref synp =>
      cases synp with
      | mk hereiam pos wcount words lexid fnum headword headsense nextss ptrlist =>
        have hlen : nextss.chain.length = n := by
          simpa [SynsetPtr.chain] using hn
        have hhead := hok (Synset.mk hereiam pos wcount words lexid fnum headword headsense
          nextss ptrlist) (by simp [SynsetPtr.chain])
        have htail := ih nextss hlen (fun x hx => hok x (by simp [SynsetPtr.chain, hx]))
        have hp := relative_ok_pos _ hhead
        simp only [SENSE_while, bind, getsspos_eq _ hp, Run.pure_bind]
        by_cases hs : (Synset.mk hereiam pos wcount words lexid fnum headword headsense
            nextss ptrlist).pos0 = 's'
        · have h5 : ¬ ((5 : Int) ≠ pos_number (Synset.mk hereiam pos wcount words lexid fnum
              headword headsense nextss ptrlist).pos0) := by
            simp [pos_number, hs]
          simp only [h5, if_false]
          refine returns_congr (returns_bind (returns_pure _) htail) ?_
          simp [relation_xml, SynsetPtr.chain, List.flatMap_cons, hs]
        · have h5 : (5 : Int) ≠ pos_number (Synset.mk hereiam pos wcount words lexid fnum
              headword headsense nextss ptrlist).pos0 := by
            rcases hp with h | h | h | h | h
            · simp [pos_number, h]
            · simp [pos_number, h]
            · simp [pos_number, h]
            · simp [pos_number, h]
            · exact absurd h hs
          simp only [if_pos h5]
          have hwords := SENSE_words_returns BLOCK link hB _ hp _ (relative_ok_words _ hhead hs)
          refine returns_congr (returns_bind hwords htail) ?_
          simp [relation_xml, SynsetPtr.chain, List.flatMap_cons, hs]

theorem SENSE_returns (wn : WordNet) (hwn : wn.relatives_ok) (word : List Char) (pos : Int)
    (sense_num : Int) (bitmask : Nat) (RELNAME : Nat) (BLOCK : List Char → Run Unit)
    (link : List Char → List Char) (hB : ∀ buff, (BLOCK buff).Returns () (link buff)) :
    (SENSE wn word pos sense_num bitmask RELNAME BLOCK).Returns ()
      (relation_xml link
        (if (1 <<< RELNAME) &&& bitmask ≠ 0 then
          (wn.findtheinfo_ds word pos RELNAME sense_num).relatives else [])) := by
  unfold SENSE
  by_cases hbit : (1 <<< RELNAME) &&& bitmask ≠ 0
  · simp only [if_pos hbit]
    have hok := hwn word pos RELNAME sense_num
    cases hf : wn.findtheinfo_ds word pos RELNAME sense_num with
    | NULL => exact returns_pure ()
    | ref sroot =>
      rw [hf] at hok
      exact SENSE_while_returns BLOCK link hB _ _ rfl hok
  · simp only [if_neg hbit]
    exact returns_pure ()

theorem print_link_returns (open_tag close_tag first second : List Char) :
    (print_link open_tag close_tag first second).Returns ()
      (link_xml open_tag close_tag first second) := by
  simp only [print_link, bind]
  refine returns_congr (returns_bind (returns_printf _) (returns_bind (returns_printf _)
    (returns_bind (returns_printf _) (returns_printf _)))) ?_
  simp [link_xml]

theorem returns_after_warning {α : Type} (c : Prop) [Decidable c] (t : List Char)
    {k : Run α} {a : α} {text : List Char} (hk : k.Returns a text) :
    (if c then (fprintf_stderr t).bind (fun _ => k) else k).Returns a text := by
  by_cases h : c
  · simp only [h, if_true]
    exact returns_congr (returns_bind (returns_fprintf_stderr t) hk) (by simp)
  · simp only [h, if_false]
    exact hk

theorem print_nyms_returns (wn : WordNet) (hwn : wn.relatives_ok) (sense_key word : List Char)
    (sense_num : Int) (synp : Synset)
    (hp : synp.pos0 = 'n' ∨ synp.pos0 = 'v' ∨ synp.pos0 = 'a' ∨ synp.pos0 = 'r' ∨
      synp.pos0 = 's') :
    (print_nyms wn sense_key word sense_num synp).Returns ()
      (relations_xml wn sense_key word sense_num synp) := by
  simp only [print_nyms, bind, pure, getsspos_eq synp hp, Run.pure_bind]
  have S := fun (rel : Nat) (BLOCK : List Char → Run Unit) (link : List Char → List Char)
      (hB : ∀ buff, (BLOCK buff).Returns () (link buff)) =>
    SENSE_returns wn hwn word (pos_number synp.pos0) sense_num
      (wn.is_defined word (pos_number synp.pos0)) rel BLOCK link hB
  refine returns_congr
    (returns_bind (returns_printf _)
    (returns_bind (S wn.HYPERPTR _ _ (fun buff => print_link_returns _ _ sense_key buff))
    (returns_bind (S wn.HYPOPTR _ _ (fun buff => print_link_returns _ _ buff sense_key))
    (returns_bind (S wn.SIMPTR _ _ (fun buff => print_link_returns _ _ sense_key buff))
    (returns_bind (S wn.ISMEMBERPTR _ _ (fun buff => print_link_returns _ _ buff sense_key))
    (returns_bind (S wn.ISSTUFFPTR _ _ (fun buff => print_link_returns _ _ buff sense_key))
    (returns_bind (S wn.ISPARTPTR _ _ (fun buff => print_link_returns _ _ buff sense_key))
    (returns_bind (S wn.HASMEMBERPTR _ _ (fun buff => print_link_returns _ _ sense_key buff))
    (returns_bind (S wn.HASSTUFFPTR _ _ (fun buff => print_link_returns _ _ sense_key buff))
    (returns_bind (S wn.HASPARTPTR _ _ (fun buff => print_link_returns _ _ sense_key buff))
    (returns_after_warning _ _ (returns_after_warning _ _ (returns_after_warning _ _
      (returns_warning _ _))))))))))))))
    ?_
  simp [relations_xml]

theorem print_synset_words_returns (wn : WordNet) (hwn : wn.relatives_ok)
    (sense_key : List Char) (sense_num : Int) (synp : Synset)
    (hp : synp.pos0 = 'n' ∨ synp.pos0 = 'v' ∨ synp.pos0 = 'a' ∨ synp.pos0 = 'r' ∨
      synp.pos0 = 's') :
    ∀ idxs : List Nat, (∀ i ∈ idxs, i < synp.words.length) →
      (print_synset_words wn sense_key sense_num synp idxs).Returns ()
        (idxs.flatMap (fun i =>
          "<WordNode name = \"".toList ++ synp.words.getD i [] ++ "\" />\n".toList ++
          "<WordSenseLink>\n".toList ++
          "   <Element class=\"WordNode\" name = \"".toList ++ synp.words.getD i [] ++
            "\" />\n".toList ++
          "   <Element class=\"WordSenseNode\" name = \"".toList ++ sense_key ++
            "\" />\n".toList ++
          "</WordSenseLink>\n".toList ++
          relations_xml wn sense_key (synp.words.getD i []) sense_num synp)) := by
  intro idxs
  induction idxs with
  | nil => intro _; exact returns_pure ()
  | cons i rest ih =>
    intro h
    have hw := h i (by simp)
    have hrest := ih (fun j hj => h j (by simp [hj]))
    have e1 : synp.words[i]? = some (synp.words.getD i []) := by
      simp [List.getD, List.getElem?_eq_getElem hw]
    have hne : ¬ ((0 : Int) = 1) := by decide
    simp only [print_synset_words, bind, e1, deref, Run.pure_bind, do_export_eq, hne, if_false]
    refine returns_congr
      (returns_bind (returns_printf _)
      (returns_bind (returns_printf _)
      (returns_bind (returns_printf _)
      (returns_bind (returns_printf _)
      (returns_bind (returns_printf _)
      (returns_bind (print_nyms_returns wn hwn sense_key _ sense_num synp hp) hrest))))))
      ?_
    simp [List.flatMap_cons]

theorem print_synset_returns (wn : WordNet) (hwn : wn.relatives_ok) (sense_key : List Char)
    (sense_num : Int) (synp : Synset)
    (hp : synp.pos0 = 'n' ∨ synp.pos0 = 'v' ∨ synp.pos0 = 'a' ∨ synp.pos0 = 'r')
    (hw : synp.wcount.toNat ≤ synp.words.length) :
    (print_synset wn sense_key sense_num synp).Returns ()
      (synset_xml wn sense_key sense_num synp) := by
  have hp5 : synp.pos0 = 'n' ∨ synp.pos0 = 'v' ∨ synp.pos0 = 'a' ∨ synp.pos0 = 'r' ∨
      synp.pos0 = 's' := by tauto
  have hwords := print_synset_words_returns wn hwn sense_key sense_num synp hp5
    (List.range synp.wcount.toNat) (fun i hi => by
      have := List.mem_range.mp hi
      omega)
  have step : ∀ name : List Char,
      ((printf ("<WordSenseNode name = \"".toList ++ sense_key ++ "\" />\n".toList)).bind
        fun _ => (printf "<PartOfSpeechLink>\n".toList).bind
        fun _ => (printf ("   <Element class=\"WordSenseNode\" name = \"".toList ++ sense_key ++
          "\" />\n".toList)).bind
        fun _ => (printf ("   <Element class=\"ConceptNode\" name = \"".toList ++ name ++
          "\" />\n".toList)).bind
        fun _ => (printf "</PartOfSpeechLink>\n".toList).bind
        fun _ => print_synset_words wn sense_key sense_num synp
          (List.range synp.wcount.toNat)).Returns ()
      ("<WordSenseNode name = \"".toList ++ sense_key ++ "\" />\n".toList ++
        "<PartOfSpeechLink>\n".toList ++
        "   <Element class=\"WordSenseNode\" name = \"".toList ++ sense_key ++
          "\" />\n".toList ++
        "   <Element class=\"ConceptNode\" name = \"".toList ++ name ++ "\" />\n".toList ++
        "</PartOfSpeechLink>\n".toList ++
        (List.range synp.wcount.toNat).flatMap (fun i =>
          "<WordNode name = \"".toList ++ synp.words.getD i [] ++ "\" />\n".toList ++
          "<WordSenseLink>\n".toList ++
          "   <Element class=\"WordNode\" name = \"".toList ++ synp.words.getD i [] ++
            "\" />\n".toList ++
          "   <Element class=\"WordSenseNode\" name = \"".toList ++ sense_key ++
            "\" />\n".toList ++
          "</WordSenseLink>\n".toList ++
          relations_xml wn sense_key (synp.words.getD i []) sense_num synp)) := by
    intro name
    refine returns_congr
      (returns_bind (returns_printf _)
      (returns_bind (returns_printf _)
      (returns_bind (returns_printf _)
      (returns_bind (returns_printf _)
      (returns_bind (returns_printf _) hwords)))))
      ?_
    simp
  have hv : ¬ ('v' = 'n') := by decide
  have ha : ¬ ('a' = 'n') ∧ ¬ ('a' = 'v') := by decide
  have hr : ¬ ('r' = 'n') ∧ ¬ ('r' = 'v') ∧ ¬ ('r' = 'a') := by decide
  rcases hp with h | h | h | h
  · simp only [print_synset, synset_xml, pos_name, h, if_true, bind, pure, Run.pure_bind]
    exact step _
  · simp only [print_synset, synset_xml, pos_name, h, hv, if_true, if_false, bind, pure,
      Run.pure_bind]
    exact step _
  · simp only [print_synset, synset_xml, pos_name, h, ha, if_true, if_false, bind, pure,
      Run.pure_bind]
    exact step _
  · simp only [print_synset, synset_xml, pos_name, h, hr, if_true, if_false, bind, pure,
      Run.pure_bind]
    exact step _

/-! ## The return code of `show_index` -/

theorem printf_bind {β : Type} (t : List Char) (f : Unit → Run β) :
    (printf t).bind f = ⟨t ++ (f ()).stdout, (f ()).stderr, (f ()).outcome⟩ := by
  simp [Run.bind, printf]

theorem fprintf_stderr_bind {β : Type} (t : List Char) (f : Unit → Run β) :
    (fprintf_stderr t).bind f = ⟨(f ()).stdout, t ++ (f ()).stderr, (f ()).outcome⟩ := by
  simp [Run.bind, fprintf_stderr]

theorem bind_stdout {α β : Type} (m : Run α) (f : α → Run β) :
    (m.bind f).stdout = m.stdout ++
      (match m.outcome with
       | .value a => (f a).stdout
       | .exit _ => []
       | .undefined => []) := by
  cases h : m.outcome <;> simp [Run.bind, h]

theorem bind_outcome {α β : Type} (m : Run α) (f : α → Run β) :
    (m.bind f).outcome =
      (match m.outcome with
       | .value a => (f a).outcome
       | .exit status => .exit status
       | .undefined => .undefined) := by
  cases h : m.outcome <;> simp [Run.bind, h]

theorem show_index_pos5 (wn : WordNet) (line : List Char) (e : IndexEntry)
    (h : show_index_parse line = Run.pure e) (h5 : e.ipos = 5) :
    show_index wn line = Run.pure (-2) := by
  simp [show_index, do_export, skip_colocations, h, bind, pure, Run.pure_bind, h5]

theorem show_index_not_found (wn : WordNet) (line : List Char) (e : IndexEntry)
    (h : show_index_parse line = Run.pure e) (h5 : e.ipos ≠ 5)
    (hs : wn.read_synset e.ipos e.offset = .NULL) :
    (show_index wn line).stdout = [] ∧ (show_index wn line).outcome = .value (-3) := by
  have h5' : ¬ (5 = e.ipos) := fun x => h5 x.symm
  simp only [show_index, do_export, skip_colocations, h, bind, pure, Run.pure_bind, if_true,
    h5', if_false, hs, one_ne_zero]
  simp [fprintf_stderr_bind, Run.pure]

theorem show_index_found (wn : WordNet) (line : List Char) (e : IndexEntry)
    (h : show_index_parse line = Run.pure e) (h5 : e.ipos ≠ 5) (synp : Synset)
    (hs : wn.read_synset e.ipos e.offset = .ref synp) :
    (show_index wn line).stdout =
      "data\n<list>\n".toList ++ (print_synset wn e.sense_key e.sense_num synp).stdout ++
        (if (print_synset wn e.sense_key e.sense_num synp).outcome = .value ()
          then "</list>\n".toList ++ [Char.ofNat 4, '\n'] else []) ∧
    (show_index wn line).outcome =
      match (print_synset wn e.sense_key e.sense_num synp).outcome with
      | .value _ => .value 0
      | .exit status => .exit status
      | .undefined => .undefined := by
  have h5' : ¬ (5 = e.ipos) := fun x => h5 x.symm
  by_cases hh : synp.hereiam = e.offset <;>
  cases hps : (print_synset wn e.sense_key e.sense_num synp).outcome <;>
  simp only [show_index, do_export, skip_colocations, h, bind, pure, Run.pure_bind, if_true,
    h5', if_false, hs, one_ne_zero, hh, ne_eq, not_true_eq_false, not_false_eq_true,
    printf_bind, fprintf_stderr_bind, bind_stdout, bind_outcome, hps] <;>
  simp [Run.pure]

theorem print_synset_unknown_pos (wn : WordNet) (sense_key : List Char) (sense_num : Int)
    (synp : Synset) (hn : synp.pos0 ≠ 'n') (hv : synp.pos0 ≠ 'v') (ha : synp.pos0 ≠ 'a')
    (hr : synp.pos0 ≠ 'r') :
    print_synset wn sense_key sense_num synp =
      ⟨[], "Error: unknown pos ".toList ++ fmt_x synp.pos0 ++ "\n".toList, .exit 1⟩ := by
  simp only [print_synset, hn, hv, ha, hr, bind, if_false]
  simp [Run.bind, fprintf_stderr, exit]

theorem main_loop_count (wn : WordNet) (lines : List (List Char)) :
    ∀ cnt : Int, (∀ b ∈ lines, ∃ rc, (show_index wn b).outcome = .value rc) →
    (main_loop wn lines cnt).outcome =
      .value (cnt + lines.countP (fun b => decide ((show_index wn b).outcome = .value 0))) := by
  induction lines with
  | nil => intro cnt _; simp [main_loop, pure, Run.pure]
  | cons b rest ih =>
    intro cnt hall
    obtain ⟨rc, hrc⟩ := hall b (by simp)
    have hrest : ∀ b ∈ rest, ∃ rc, (show_index wn b).outcome = .value rc :=
      fun x hx => hall x (by simp [hx])
    by_cases h0 : rc = 0
    · subst h0
      have := ih (cnt + 1) hrest
      by_cases hm : (cnt + 1) % 1000 = 0 <;>
      simp [main_loop, bind, Run.bind, hrc, fprintf_stderr, hm, this, List.countP_cons, pure,
        Run.pure] <;> ring
    · have h0' : ¬ (0 = rc) := fun x => h0 x.symm
      have := ih cnt hrest
      by_cases hm : cnt % 1000 = 0 <;>
      simp [main_loop, bind, Run.bind, hrc, fprintf_stderr, hm, this, List.countP_cons, pure,
        Run.pure, h0, h0']

theorem show_index_outcome_cases (wn : WordNet) (line : List Char) (e : IndexEntry)
    (h : show_index_parse line = Run.pure e) :
    ((show_index wn line).outcome = .value (-2) ↔ e.ipos = 5) ∧
    ((show_index wn line).outcome = .value (-3) ↔
      e.ipos ≠ 5 ∧ wn.read_synset e.ipos e.offset = .NULL) ∧
    (∀ synp : Synset, e.ipos ≠ 5 → wn.read_synset e.ipos e.offset = .ref synp →
      ((show_index wn line).outcome = .value 0 ↔
        (print_synset wn e.sense_key e.sense_num synp).outcome = .value ()) ∧
      (∀ status, (print_synset wn e.sense_key e.sense_num synp).outcome = .exit status →
        (show_index wn line).outcome = .exit status)) := by
  by_cases h5 : e.ipos = 5
  · have hv := show_index_pos5 wn line e h h5
    refine ⟨?_, ?_, ?_⟩
    · simp [hv, Run.pure, h5]
    · simp [hv, Run.pure, h5]
    · intro synp hn
      exact absurd h5 hn
  · cases hs : wn.read_synset e.ipos e.offset with
    | NULL =>
      have hv := (show_index_not_found wn line e h h5 hs).2
      refine ⟨?_, ?_, ?_⟩
      · simp [hv, h5]
      · simp [hv, h5]
      · intro synp _ hsyn
        cases hsyn
    | ref synp =>
      have hv := (show_index_found wn line e h h5 synp hs).2
      refine ⟨?_, ?_, ?_⟩
      · rw [hv]
        cases (print_synset wn e.sense_key e.sense_num synp).outcome <;> simp [h5]
      · rw [hv]
        cases (print_synset wn e.sense_key e.sense_num synp).outcome <;> simp [h5]
      · intro synp2 _ hsyn
        have e2 : synp = synp2 := by
          injection hsyn
        subst e2
        rw [hv]
        constructor
        · cases (print_synset wn e.sense_key e.sense_num synp).outcome <;> simp
        · intro status hst
          rw [hst]

theorem show_index_found_returns (wn : WordNet) (line : List Char) (e : IndexEntry)
    (h : show_index_parse line = Run.pure e) (h5 : e.ipos ≠ 5) (synp : Synset)
    (hs : wn.read_synset e.ipos e.offset = .ref synp) (text : List Char)
    (hps : (print_synset wn e.sense_key e.sense_num synp).Returns () text) :
    (show_index wn line).outcome = .value 0 ∧
    (show_index wn line).stdout =
      "data\n".toList ++ "<list>\n".toList ++ text ++ "</list>\n".toList ++
        [Char.ofNat 4, '\n'] := by
  obtain ⟨h1, h2⟩ := show_index_found wn line e h h5 synp hs
  obtain ⟨ho, ht⟩ := hps
  rw [h2, h1, ho, ht]
  simp

theorem show_index_found_exits (wn : WordNet) (line : List Char) (e : IndexEntry)
    (h : show_index_parse line = Run.pure e) (h5 : e.ipos ≠ 5) (synp : Synset)
    (hs : wn.read_synset e.ipos e.offset = .ref synp)
    (hn : synp.pos0 ≠ 'n') (hv : synp.pos0 ≠ 'v') (ha : synp.pos0 ≠ 'a')
    (hr : synp.pos0 ≠ 'r') :
    (show_index wn line).outcome = .exit 1 ∧
    (show_index wn line).stdout = "data\n".toList ++ "<list>\n".toList := by
  obtain ⟨h1, h2⟩ := show_index_found wn line e h h5 synp hs
  rw [h2, h1, print_synset_unknown_pos wn _ _ synp hn hv ha hr]
  simp

theorem wn_sample_relatives_ok : wn_sample.relatives_ok := by
  intro word pos rel sense_num nymp h
  simp only [wn_sample] at h
  split at h
  · have e : nymp = covering_synset := by
      simpa [SynsetPtr.relatives, bark_synset, Synset.ptrlist, SynsetPtr.chain,
        covering_synset] using h
    subst e
    decide
  · simp [SynsetPtr.relatives] at h

/-! ## `show_index` and `main` (C10) -/

/-- C10 fails as stated, in two places. In the sample database the adjective file holds the
satellite synset of `abnormal` at offset 1533535, with `pos` letter `s`; for the line
`abnormal%3:00:00:: 01533535 3 0`, `ipos` is 3 and `read_synset` finds that synset, yet
`show_index` does not print it and return 0: `print_synset` ends the process with `exit(1)`.
And on the line `bark%1:20:00:: 99999999999 1 4` the offset taken is 1215752191, not the
decimal value 99999999999 of the second field, which no `int` holds. -/
theorem show_index_counterexample :
    (show_index_parse "abnormal%3:00:00:: 01533535 3 0".toList =
        Run.pure ⟨3, "abnormal%3:00:00::".toList, 1533535, 3⟩ ∧
      wn_sample.read_synset 3 1533535 = .ref abnormal_synset ∧
      (show_index wn_sample "abnormal%3:00:00:: 01533535 3 0".toList).outcome ≠ .value 0 ∧
      (show_index wn_sample "abnormal%3:00:00:: 01533535 3 0".toList).outcome = .exit 1) ∧
    (show_index_parse "bark%1:20:00:: 99999999999 1 4".toList =
        Run.pure ⟨1, "bark%1:20:00::".toList, 1215752191, 1⟩ ∧
      decimal "99999999999".toList = 99999999999 ∧
      (1215752191 : Int) ≠ 99999999999) := by
  refine ⟨⟨by decide, rfl, by decide, by decide⟩, by decide, by decide, by decide⟩

/-- C10 as amended: for every line `<sense_key> <offset> <sense_num> <rest>` whose sense key
holds no space and has its first `%` followed by a decimal number, and whose three numbers
fit an `int`, `show_index` takes `ipos` = the number after the first `%`, `sense_key` = the
text before the first space, `offset` and `sense_num` = the decimal values of the second and
third field. It returns -2 exactly when `ipos` is 5, otherwise -3 exactly when `read_synset`
finds no synset for `(ipos, offset)`. Otherwise, when the `pos` letter of the synset found
is `n`, `v`, `a` or `r` (the library data being well formed), it prints `data`, `<list>`,
the synset, `</list>` and the end-of-transmission line, and returns 0; when the letter is
none of these, nothing follows `<list>` and the process ends in `exit(1)`. `main` counts a
word sense only for a return of 0: when every call returns, the final count is the starting
count plus the number of lines with return value 0. -/
theorem show_index_entry (wn : WordNet)
    (word pos_s rest_key offset_s sense_s tail : List Char)
    (hl1 : '%' ∉ word) (hl2 : ' ' ∉ word)
    (hp1 : pos_s ≠ []) (hp2 : ∀ x ∈ pos_s, isdigit x = true)
    (hr1 : ∀ x, rest_key.head? = some x → isdigit x = false) (hr2 : ' ' ∉ rest_key)
    (ho1 : offset_s ≠ []) (ho2 : ∀ x ∈ offset_s, isdigit x = true)
    (hs1 : sense_s ≠ []) (hs2 : ∀ x ∈ sense_s, isdigit x = true)
    (hpv : decimal pos_s ≤ 2147483647) (hov : decimal offset_s ≤ 2147483647)
    (hsv : decimal sense_s ≤ 2147483647) :
    show_index_parse
      (word ++ '%' :: pos_s ++ rest_key ++ ' ' :: offset_s ++ ' ' :: sense_s ++ ' ' :: tail) =
      Run.pure ⟨decimal pos_s, word ++ '%' :: pos_s ++ rest_key, decimal offset_s,
        decimal sense_s⟩ ∧
    ((show_index wn
        (word ++ '%' :: pos_s ++ rest_key ++ ' ' :: offset_s ++ ' ' :: sense_s ++ ' ' :: tail)
      ).outcome = .value (-2) ↔ (decimal pos_s : Int) = 5) ∧
    ((show_index wn
        (word ++ '%' :: pos_s ++ rest_key ++ ' ' :: offset_s ++ ' ' :: sense_s ++ ' ' :: tail)
      ).outcome = .value (-3) ↔
      (decimal pos_s : Int) ≠ 5 ∧ wn.read_synset (decimal pos_s) (decimal offset_s) = .NULL) ∧
    (∀ synp : Synset, (decimal pos_s : Int) ≠ 5 →
      wn.read_synset (decimal pos_s) (decimal offset_s) = .ref synp →
      ((synp.pos0 = 'n' ∨ synp.pos0 = 'v' ∨ synp.pos0 = 'a' ∨ synp.pos0 = 'r') →
        synp.wcount.toNat ≤ synp.words.length → wn.relatives_ok →
        (show_index wn
          (word ++ '%' :: pos_s ++ rest_key ++ ' ' :: offset_s ++ ' ' :: sense_s ++ ' ' :: tail)
        ).outcome = .value 0 ∧
        (show_index wn
          (word ++ '%' :: pos_s ++ rest_key ++ ' ' :: offset_s ++ ' ' :: sense_s ++ ' ' :: tail)
        ).stdout = index_xml wn (word ++ '%' :: pos_s ++ rest_key) (decimal sense_s) synp) ∧
      (synp.pos0 ≠ 'n' → synp.pos0 ≠ 'v' → synp.pos0 ≠ 'a' → synp.pos0 ≠ 'r' →
        (show_index wn
          (word ++ '%' :: pos_s ++ rest_key ++ ' ' :: offset_s ++ ' ' :: sense_s ++ ' ' :: tail)
        ).outcome = .exit 1 ∧
        (show_index wn
          (word ++ '%' :: pos_s ++ rest_key ++ ' ' :: offset_s ++ ' ' :: sense_s ++ ' ' :: tail)
        ).stdout = "data\n".toList ++ "<list>\n".toList)) ∧
    (∀ (lines : List (List Char)) (cnt : Int),
      (∀ b ∈ lines, ∃ rc, (show_index wn b).outcome = .value rc) →
      (main_loop wn lines cnt).outcome =
        .value (cnt + lines.countP (fun b => decide ((show_index wn b).outcome = .value 0))))
    := by
  have hparse := show_index_parse_entry word pos_s rest_key offset_s sense_s tail hl1 hl2 hp1
    hp2 hr1 hr2 ho1 ho2 hs1 hs2 hpv hov hsv
  obtain ⟨c1, c2, _⟩ := show_index_outcome_cases wn _ _ hparse
  refine ⟨hparse, c1, c2, ?_, fun lines cnt h => main_loop_count wn lines cnt h⟩
  intro synp h5 hsyn
  constructor
  · intro hp hw hwn
    exact show_index_found_returns wn _ _ hparse h5 synp hsyn _
      (print_synset_returns wn hwn _ _ synp hp hw)
  · intro hn hv ha hr
    exact show_index_found_exits wn _ _ hparse h5 synp hsyn hn hv ha hr

set_option maxRecDepth 100000

/-- Witness of the amended C10 in the sample database. The line
`bark%1:20:00:: 13162297 1 4` is parsed as stated and makes `show_index` return 0 after
printing the noun synset of `bark` with its hypernym `covering, natural_covering, cover`;
the line `abnormal%5:00:00:immoderate:00 01533535 3 0` makes it return -2. -/
theorem show_index_entry_witness :
    show_index_parse "bark%1:20:00:: 13162297 1 4\n".toList =
      Run.pure ⟨1, "bark%1:20:00::".toList, 13162297, 1⟩ ∧
    (show_index wn_sample "bark%1:20:00:: 13162297 1 4\n".toList).outcome = .value 0 ∧
    (show_index wn_sample "bark%1:20:00:: 13162297 1 4\n".toList).stdout =
      ("data\n<list>\n" ++
       "<WordSenseNode name = \"bark%1:20:00::\" />\n" ++
       "<PartOfSpeechLink>\n" ++
       "   <Element class=\"WordSenseNode\" name = \"bark%1:20:00::\" />\n" ++
       "   <Element class=\"ConceptNode\" name = \"noun\" />\n" ++
       "</PartOfSpeechLink>\n" ++
       "<WordNode name = \"bark\" />\n" ++
       "<WordSenseLink>\n" ++
       "   <Element class=\"WordNode\" name = \"bark\" />\n" ++
       "   <Element class=\"WordSenseNode\" name = \"bark%1:20:00::\" />\n" ++
       "</WordSenseLink>\n" ++
       "<WordSenseNode name=\"bark%1:20:00::\" />\n" ++
       "<WordSenseNode name=\"covering%1:17:00::\" />\n" ++
       "<InheritanceLink>\n" ++
       "   <Element class=\"WordSenseNode\" name=\"bark%1:20:00::\" />\n" ++
       "   <Element class=\"WordSenseNode\" name=\"covering%1:17:00::\" />\n" ++
       "</InheritanceLink>\n" ++
       "<WordSenseNode name=\"natural_covering%1:17:00::\" />\n" ++
       "<InheritanceLink>\n" ++
       "   <Element class=\"WordSenseNode\" name=\"bark%1:20:00::\" />\n" ++
       "   <Element class=\"WordSenseNode\" name=\"natural_covering%1:17:00::\" />\n" ++
       "</InheritanceLink>\n" ++
       "<WordSenseNode name=\"cover%1:17:00::\" />\n" ++
       "<InheritanceLink>\n" ++
       "   <Element class=\"WordSenseNode\" name=\"bark%1:20:00::\" />\n" ++
       "   <Element class=\"WordSenseNode\" name=\"cover%1:17:00::\" />\n" ++
       "</InheritanceLink>\n" ++
       "</list>\n\x04\n").toList ∧
    (show_index wn_sample "abnormal%5:00:00:immoderate:00 01533535 3 0".toList).outcome
      = .value (-2) :=
  have h := show_index_entry wn_sample "bark".toList "1".toList ":20:00::".toList
    "13162297".toList "1".toList "4\n".toList (by decide) (by decide) (by decide) (by decide)
    (by decide) (by decide) (by decide) (by decide) (by decide) (by decide) (by decide)
    (by decide) (by decide)
  have hb := (h.2.2.2.1 (bark_synset .NULL) (by decide) rfl).1 (Or.inl rfl) (by decide)
    wn_sample_relatives_ok
  have h5 := show_index_entry wn_sample "abnormal".toList "5".toList ":00:00:immoderate:00".toList
    "01533535".toList "3".toList "0".toList (by decide) (by decide) (by decide) (by decide)
    (by decide) (by decide) (by decide) (by decide) (by decide) (by decide) (by decide)
    (by decide) (by decide)
  ⟨h.1, hb.1, hb.2.trans (by decide), h5.2.1.mpr (by decide)⟩

end wni

namespace opencog

/-! ## The document root search of `init` (C11) -/

theorem web_path_index_getD (file_exists : List Char → Bool) (cands : List (List Char)) :
    ∀ (pre : List (Option (List Char))) (i : Nat), pre.length = i →
      (pre ++ (cands.map some ++ [none])).getD
        (WebModule.web_path_index file_exists (cands.map some ++ [none]) i) none =
      cands.find? (contains_processing_js file_exists) := by
  induction cands with
  | nil =>
    intro pre i hi
    subst hi
    simp only [List.map_nil, List.nil_append, WebModule.web_path_index, List.find?_nil]
    rw [List.getD_eq_getElem?_getD, List.getElem?_append_right (Nat.le_refl pre.length)]
    simp
  | cons d ds ih =>
    intro pre i hi
    subst hi
    by_cases hd : contains_processing_js file_exists d = true
    · have hd2 : file_exists (path_append d "processing.js".toList) = true := hd
      simp only [List.map_cons, List.cons_append, WebModule.web_path_index, hd2, if_true,
        List.find?_cons, hd]
      rw [List.getD_eq_getElem?_getD, List.getElem?_append_right (Nat.le_refl pre.length)]
      simp
    · have hd2 : file_exists (path_append d "processing.js".toList) = false := by
        simpa [contains_processing_js] using hd
      have hd3 : contains_processing_js file_exists d = false := by simpa using hd
      have := ih (pre ++ [some d]) (pre.length + 1) (by simp)
      simp only [List.map_cons, List.cons_append, WebModule.web_path_index, hd2,
        List.find?_cons, hd3]
      simpa using this

theorem default_web_path_eq (build : Build) :
    DEFAULT_WEB_PATH build = (web_path_candidates build).map some ++ [none] ∧
    web_path_candidates build = [build.DATADIR, "../opencog/web".toList] ++
      (if build.WIN32 then []
       else ["/usr/share/opencog/www".toList, "/usr/local/share/opencog/www".toList]) := by
  cases h : build.WIN32 <;>
  simp [DEFAULT_WEB_PATH, web_path_candidates, h, List.reduceOption]

theorem root_option_eq_find (self : WebModule) (build : Build)
    (file_exists : List Char → Bool) :
    root_option self build file_exists =
      some ((web_path_candidates build).find? (contains_processing_js file_exists)) := by
  have h := web_path_index_getD file_exists (web_path_candidates build) [] 0 rfl
  rw [List.nil_append, ← (default_web_path_eq build).1] at h
  have ho : ∀ ctx : mg_context, (WebModule.setupURIs ctx).options = ctx.options := fun _ => rfl
  simp only [root_option, WebModule.init, ho, mg_set_option, mg_start, List.nil_append,
    List.cons_append, h]
  have hne : ¬ ("ports".toList = "root".toList) := by decide
  simp [List.find?_cons, hne]

/-- C11: whatever the file system, the `root` option `init` passes to the HTTP server is the
first candidate directory of `DEFAULT_WEB_PATH`, in list order, that contains
`processing.js`; and when no candidate contains it, the value passed is the `NULL` that
terminates the list, not a candidate directory. The candidates are the entries in front of
that terminator. -/
theorem document_root_search (self : WebModule) (build : Build)
    (file_exists : List Char → Bool) :
    DEFAULT_WEB_PATH build = (web_path_candidates build).map some ++ [none] ∧
    web_path_candidates build = [build.DATADIR, "../opencog/web".toList] ++
      (if build.WIN32 then []
       else ["/usr/share/opencog/www".toList, "/usr/local/share/opencog/www".toList]) ∧
    root_option self build file_exists =
      some ((web_path_candidates build).find? (contains_processing_js file_exists)) ∧
    (∀ dir : List Char, root_option self build file_exists = some (some dir) ↔
      contains_processing_js file_exists dir = true ∧
      ∃ before after, web_path_candidates build = before ++ dir :: after ∧
        ∀ d ∈ before, contains_processing_js file_exists d = false) ∧
    (root_option self build file_exists = some none ↔
      ∀ d ∈ web_path_candidates build, contains_processing_js file_exists d = false) := by
  have hroot := root_option_eq_find self build file_exists
  refine ⟨(default_web_path_eq build).1, (default_web_path_eq build).2, hroot, ?_, ?_⟩
  · intro dir
    rw [hroot, Option.some_inj, List.find?_eq_some]
    simp
  · rw [hroot, Option.some_inj, List.find?_eq_none]
    simp

/-- Witness of C11 on a build for a system other than Windows: when only the third candidate
holds `processing.js` it is the root, and when no candidate holds it the root is `NULL`. -/
theorem document_root_search_witness :
    root_option ⟨17034, none, 100, "http://localhost".toList⟩ sample_build
      (fun path => path == "/usr/share/opencog/www/processing.js".toList)
      = some (some "/usr/share/opencog/www".toList) ∧
    root_option ⟨17034, none, 100, "http://localhost".toList⟩ sample_build (fun _ => false)
      = some none :=
  ⟨((document_root_search ⟨17034, none, 100, "http://localhost".toList⟩ sample_build
      (fun path => path == "/usr/share/opencog/www/processing.js".toList)).2.2.2.1
      "/usr/share/opencog/www".toList).mpr
      ⟨by decide, ["/usr/local/share/opencog".toList, "../opencog/web".toList],
        ["/usr/local/share/opencog/www".toList], by decide, by decide⟩,
   (document_root_search ⟨17034, none, 100, "http://localhost".toList⟩ sample_build
      (fun _ => false)).2.2.2.2.mpr (by decide)⟩

end opencog
